import Mathlib

/-!
Verification of the rule-based document-to-HTML conversion engine of the
Blog-Document-to-HTML repository.

The JavaScript sources are shallowly embedded over `Str := List Char`
(JS strings are sequences of UTF-16 code units; all string literals and
regular expressions in the embedded code are ASCII, so a character-list
model with ASCII case mapping and the ASCII portion of the JS `\s` class
is faithful on the inputs the program manipulates).  Every regular
expression of the source is implemented as a dedicated scanner that
follows the leftmost / greedy / lazy semantics of the concrete pattern,
as noted at each definition.
-/

/-- JS strings modelled as lists of characters. -/
abbrev Str := List Char

/-- The apostrophe character (code 39), used by the embedded scanners. -/
def squote : Char := Char.ofNat 39

/-- ASCII part of the JS `\s` character class (space, tab, LF, VT, FF, CR). -/
def jsIsWs (c : Char) : Bool :=
  c == ' ' || c == '\t' || c == '\n' || c == Char.ofNat 11 || c == Char.ofNat 12 || c == '\r'

/-- Decimal digit test, the `\d` / `[0-9]` class. -/
def isDigitCh (c : Char) : Bool := '0' ≤ c && c ≤ '9'

/-- The `[A-Z]` class. -/
def isUpperCh (c : Char) : Bool := 'A' ≤ c && c ≤ 'Z'

/-- The `[a-z]` class. -/
def isLowerCh (c : Char) : Bool := 'a' ≤ c && c ≤ 'z'

/-- JS `String.prototype.toUpperCase`, ASCII fragment (Lean's `Char.toUpper`). -/
def jsToUpper (s : Str) : Str := s.map Char.toUpper

/-- JS `String.prototype.toLowerCase`, ASCII fragment (Lean's `Char.toLower`). -/
def jsToLower (s : Str) : Str := s.map Char.toLower

/-- JS `String.prototype.trim` (strip whitespace from both ends). -/
def jsTrim (s : Str) : Str :=
  List.rdropWhile jsIsWs (s.dropWhile jsIsWs)

/-- Does `s` start with `pat` (JS `startsWith`)? -/
def strStartsWith : Str → Str → Bool
  | _, [] => true
  | [], _ :: _ => false
  | c :: cs, p :: ps => c == p && strStartsWith cs ps

/-- Does `s` end with `pat` (JS `endsWith`)? -/
def strEndsWith (s pat : Str) : Bool := strStartsWith s.reverse pat.reverse

/-- Does `s` contain `pat` as a contiguous substring (JS `includes`)? -/
def containsSub (s pat : Str) : Bool :=
  match s with
  | [] => strStartsWith [] pat
  | _ :: rest => strStartsWith s pat || containsSub rest pat

/-- Case-insensitive variant of `strStartsWith` (for regexes with the `i` flag). -/
def strStartsWithCI (s pat : Str) : Bool :=
  strStartsWith (jsToLower s) (jsToLower pat)

/-- JS `String.prototype.split` with a single-character separator:
splits at every occurrence, keeping empty pieces (`"".split` gives `[""]`). -/
def splitAllOn (sep : Char) : Str → List Str
  | [] => [[]]
  | c :: rest =>
    if c == sep then [] :: splitAllOn sep rest
    else
      match splitAllOn sep rest with
      | [] => [[c]]
      | p :: ps => (c :: p) :: ps

/-- JS `Array.prototype.flatten` with a separator string. -/
def joinWith (sep : Str) : List Str → Str
  | [] => []
  | [x] => x
  | x :: xs => x ++ sep ++ joinWith sep xs

/-- Worker for `jsSplitWs`; `inSep` records whether the previous character was
part of a whitespace separator run. -/
def jsSplitWsGo : Bool → Str → List Str
  | _, [] => [[]]
  | inSep, c :: rest =>
    if jsIsWs c then
      if inSep then jsSplitWsGo true rest
      else [] :: jsSplitWsGo true rest
    else
      match jsSplitWsGo false rest with
      | [] => [[c]]
      | p :: ps => (c :: p) :: ps

/-- JS `split(/\s+/)`: maximal whitespace runs are separators; a leading or
trailing run yields an empty first or last piece, and `""` splits to `[""]`. -/
def jsSplitWs (s : Str) : List Str := jsSplitWsGo false s

/-- Decimal rendering of a natural number (JS template interpolation of a number). -/
def natToStr (n : Nat) : Str := (Nat.repr n).data

/-!
Regex pattern library.  Each definition implements one concrete regular
expression of the source, with JS leftmost / greedy / lazy semantics; the
pattern is quoted at each definition.  All quantifier choices here are
deterministic: a maximal `\d+` or `\s+` run followed by a character not in
the class cannot be saved by backtracking, because any shorter run would
leave a class character where the next literal is required.
-/

/-- Consume `\d+\.` (maximal digit run, then a dot); `none` if it fails. -/
def dropNumDot (s : Str) : Option Str :=
  if s.takeWhile isDigitCh = [] then none
  else
    match s.dropWhile isDigitCh with
    | '.' :: r => some r
    | _ => none

/-- Test of the anchored pattern `\d+\.` repeated `k+1` times, then `\s+`
(so `testNumbered 0` is `/^\d+\.\s+/`, `testNumbered 1` is `/^\d+\.\d+\.\s+/`,
`testNumbered 2` is `/^\d+\.\d+\.\d+\.\s+/`). -/
def testNumbered : Nat → Str → Bool
  | 0, s =>
    (match dropNumDot s with
     | some r => r.takeWhile jsIsWs ≠ []
     | none => false)
  | k + 1, s =>
    (match dropNumDot s with
     | some r => testNumbered k r
     | none => false)

/-- Test of `/^\d+\.\s+[A-Z]/`. -/
def testNumDotWsUpper (s : Str) : Bool :=
  match dropNumDot s with
  | some r =>
    r.takeWhile jsIsWs ≠ [] &&
      (match r.dropWhile jsIsWs with
       | c :: _ => isUpperCh c
       | [] => false)
  | none => false

/-- Test of `/^\d+\./` (used by `getListType`). -/
def testNumDot (s : Str) : Bool := (dropNumDot s).isSome

/-- Test of `/^[A-Z\s]+$/`. -/
def testAllUpperWs (s : Str) : Bool :=
  s ≠ [] && s.all (fun c => isUpperCh c || jsIsWs c)

/-- Test of `/^[A-Z\s\-:]+$/`. -/
def testAllUpperWsDashColon (s : Str) : Bool :=
  s ≠ [] && s.all (fun c => isUpperCh c || jsIsWs c || c == '-' || c == ':')

/-- Test of `/^[A-Z]/`. -/
def testLeadingUpper (s : Str) : Bool :=
  match s with
  | c :: _ => isUpperCh c
  | [] => false

/-- Test of `/^[-•*]\s+/`. -/
def testBulletWs (s : Str) : Bool :=
  match s with
  | c :: rest => (c == '-' || c == '•' || c == '*') && rest.takeWhile jsIsWs ≠ []
  | [] => false

/-- Test of `/\s{3,}/` (three consecutive whitespace characters anywhere). -/
def testWs3 : Str → Bool
  | [] => false
  | c :: rest =>
    (jsIsWs c &&
      (match rest with
       | a :: b :: _ => jsIsWs a && jsIsWs b
       | _ => false))
    || testWs3 rest

/-- Search, over non-newline characters only, for the literal `pat`
(the continuation `(.*?)pat` of a lazy group: the dot does not match `\n`).
Returns the shortest inner text and the rest after `pat`; `ci` selects
case-insensitive literal matching (`i` flag). -/
def lazyClose (ci : Bool) (pat : Str) : Str → Option (Str × Str)
  | [] => none
  | c :: rest =>
    if (if ci then strStartsWithCI (c :: rest) pat else strStartsWith (c :: rest) pat) then
      some ([], (c :: rest).drop pat.length)
    else if c != '\n' then
      (lazyClose ci pat rest).map (fun p => (c :: p.1, p.2))
    else none

/-- Test of `/\*\*(.*?)\*\*/` (unanchored: some position starts `**` with a
newline-free closing `**` after it). -/
def testBoldMd : Str → Bool
  | [] => false
  | c :: rest =>
    (strStartsWith (c :: rest) ("**".data) &&
      (lazyClose false ("**".data) ((c :: rest).drop 2)).isSome)
    || testBoldMd rest

/-- Test of `/<strong>(.*?)<\/strong>/i`. -/
def testStrongTag : Str → Bool
  | [] => false
  | c :: rest =>
    (strStartsWithCI (c :: rest) ("<strong>".data) &&
      (lazyClose true ("</strong>".data) ((c :: rest).drop 8)).isSome)
    || testStrongTag rest

namespace DP

/-- `DocumentParser.generateId` (src/document-parser.js:770):
`text.toLowerCase().replace(/[^a-z0-9\s-]/g, '').replace(/\s+/g, '-').substring(0, 50)`.
`genKeep` is the class kept by the first replace, i.e. `[a-z0-9\s-]`. -/
def genKeep (c : Char) : Bool := isLowerCh c || isDigitCh c || jsIsWs c || c == '-'

/-- `replace(/\s+/g, '-')`: each maximal whitespace run becomes one hyphen.
The `inRun` flag records whether the previous character was whitespace. -/
def wsRunsToHyphenGo : Bool → Str → Str
  | _, [] => []
  | inRun, c :: rest =>
    if jsIsWs c then (if inRun then [] else ['-']) ++ wsRunsToHyphenGo true rest
    else c :: wsRunsToHyphenGo false rest

/-- `replace(/\s+/g, '-')` on a whole string. -/
def wsRunsToHyphen (s : Str) : Str := wsRunsToHyphenGo false s

/-- `DocumentParser.generateId` (src/document-parser.js:770-775). -/
def generateId (text : Str) : Str :=
  ((wsRunsToHyphen ((jsToLower text).filter genKeep))).take 50

end DP

namespace SD

/-- `SectionDetector.generateId` (src/unnamed/part_000:473-478); the body is
textually identical to `DocumentParser.generateId`. -/
def generateId (text : Str) : Str :=
  ((DP.wsRunsToHyphen ((jsToLower text).filter DP.genKeep))).take 50

end SD

namespace TS

/-- `TemplateSystem.generateId` (src/unnamed/part_001:527-532); the body is
textually identical to `DocumentParser.generateId`. -/
def generateId (text : Str) : Str :=
  ((DP.wsRunsToHyphen ((jsToLower text).filter DP.genKeep))).take 50

end TS

namespace Srv

/-- Server-side `isHeading` (src/unnamed/part_001:1603-1607):
`line.length > 5 && line === line.toUpperCase() && /^[A-Z\s]+$/.test(line) ||
 /^\d+\.\s+[A-Z]/.test(line) || line.endsWith('?') && line.length > 10`. -/
def isHeading (line : Str) : Bool :=
  (decide (5 < line.length) && (line == jsToUpper line) && testAllUpperWs line)
  || testNumDotWsUpper line
  || (strEndsWith line ['?'] && decide (10 < line.length))

/-- Server-side `getHeadingLevel` (src/unnamed/part_001:1609-1613):
numbered lines (`/^\d+\.\s+/`) are level 2, questions level 3, everything
else level 1. -/
def getHeadingLevel (line : Str) : Nat :=
  if testNumbered 0 line then 2
  else if strEndsWith line ['?'] then 3
  else 1

end Srv

/-!
Generic global-replace scanner.  JS `String.prototype.replace` with the `g`
flag scans the input left to right: at each position it either matches
(emitting the replacement and continuing after the matched text — replaced
text is never re-scanned) or copies one character.  `tryM` returns the
replacement together with the number of input characters consumed (always
at least 1 for the matchers below; the `max k 1` only serves the fuel
bound).  Since every iteration consumes at least one character,
`s.length` fuel always suffices and the fuel-exhaustion branch is
unreachable on the initial call.
-/

/-- Fueled worker for `scanRepl`. -/
def scanGo (tryM : Str → Option (Str × Nat)) : Nat → Str → Str
  | 0, s => s
  | _ + 1, [] => []
  | fuel + 1, c :: rest =>
    match tryM (c :: rest) with
    | some (out, k) => out ++ scanGo tryM fuel ((c :: rest).drop (max k 1))
    | none => c :: scanGo tryM fuel rest

/-- Global regex replacement driven by the matcher `tryM`. -/
def scanRepl (tryM : Str → Option (Str × Nat)) (s : Str) : Str :=
  scanGo tryM s.length s

/-- Fueled worker for `scanStRepl` (replacement with a state threaded
left-to-right, for replace callbacks and lookbehinds). -/
def scanStGo {σ : Type} (tryM : σ → Str → Option (Str × Nat × σ))
    (upd : σ → Char → σ) : Nat → σ → Str → Str
  | 0, _, s => s
  | _ + 1, _, [] => []
  | fuel + 1, st, c :: rest =>
    match tryM st (c :: rest) with
    | some (out, k, st') => out ++ scanStGo tryM upd fuel st' ((c :: rest).drop (max k 1))
    | none => c :: scanStGo tryM upd fuel (upd st c) rest

/-- Stateful global regex replacement. -/
def scanStRepl {σ : Type} (tryM : σ → Str → Option (Str × Nat × σ))
    (upd : σ → Char → σ) (init : σ) (s : Str) : Str :=
  scanStGo tryM upd s.length init s

namespace DP

/-- Matcher for the removal `replace(/\*\*.*?\*\*|<strong>.*?<\/strong>/gi, '')`
used in `isHeading`/`getHeadingLevel` to measure the context around bold
markup.  The first alternative is preferred at a given position, as in JS. -/
def stripBoldMatcher (s : Str) : Option (Str × Nat) :=
  if strStartsWith s ("**".data) then
    match lazyClose false ("**".data) (s.drop 2) with
    | some (inner, _) => some ([], 2 + inner.length + 2)
    | none =>
      if strStartsWithCI s ("<strong>".data) then
        match lazyClose true ("</strong>".data) (s.drop 8) with
        | some (inner, _) => some ([], 8 + inner.length + 9)
        | none => none
      else none
  else if strStartsWithCI s ("<strong>".data) then
    match lazyClose true ("</strong>".data) (s.drop 8) with
    | some (inner, _) => some ([], 8 + inner.length + 9)
    | none => none
  else none

/-- `text.replace(/\*\*.*?\*\*|<strong>.*?<\/strong>/gi, '')`. -/
def stripBoldMarkup (s : Str) : Str := scanRepl stripBoldMatcher s

/-- The `hasBoldFormatting` expression of `isHeading`/`getHeadingLevel`:
`/\*\*(.*?)\*\*/.test(text) || /<strong>(.*?)<\/strong>/i.test(text)`. -/
def hasBoldFormatting (text : Str) : Bool :=
  testBoldMd text || testStrongTag text

/-- The title-case word filter of `isHeading`/`getHeadingLevel`:
`word.length > 0 && /^[A-Z]/.test(word) && word.length > 2`. -/
def isTitleCaseWord (w : Str) : Bool :=
  decide (0 < w.length) && testLeadingUpper w && decide (2 < w.length)

/-- The comparison `titleCaseWords.length >= words.length * 0.6`.  The JS
multiplication is IEEE double; for the only word counts that reach it
(2 ≤ words.length ≤ 10, enforced by the surrounding guard) the float
comparison agrees with the exact rational one, i.e. with
`10 * titleCase ≥ 6 * words`. -/
def titleCaseRatioOk (titleCase words : Nat) : Bool :=
  decide (6 * words ≤ 10 * titleCase)

/-- `DocumentParser.isHeading` (src/document-parser.js:579-642), branch for
branch faithful to the source's early returns. -/
def isHeading (line : Str) : Bool :=
  let text := jsTrim line
  if decide (150 < text.length) then false
  else if hasBoldFormatting text && decide (5 < text.length) && decide (text.length < 100) then
    -- context left after deleting the bold spans decides heading vs content
    let beforeAfterContext := jsTrim (stripBoldMarkup text)
    if decide (10 < beforeAfterContext.length) then false else true
  else
    -- ALL CAPS with at most 8 words
    if decide (5 < text.length) && (text == jsToUpper text) && testAllUpperWsDashColon text
        && decide ((jsSplitWs text).length ≤ 8) then true
    else if testNumDotWsUpper text then true
    else if strEndsWith text ['?'] && decide (10 < text.length) && decide (text.length < 80) then true
    else
      let words := jsSplitWs text
      if decide (2 ≤ words.length) && decide (words.length ≤ 10)
          && titleCaseRatioOk (words.filter isTitleCaseWord).length words.length then true
      else if containsSub text ("_".data) && testLeadingUpper text then true
      else if strEndsWith text [':'] && decide (5 < text.length) && decide (text.length < 80)
          && testLeadingUpper text then true
      else false

/-- Matcher for `replace(/\*\*|\<\/?strong\>/gi, '')` in `getHeadingLevel`
(first alternative `\*\*`, second `<` optional `/` `strong` `>` with the
optional `/` tried first, case-insensitively). -/
def stripBoldTokensMatcher (s : Str) : Option (Str × Nat) :=
  if strStartsWith s ("**".data) then some ([], 2)
  else if strStartsWithCI s ("</strong>".data) then some ([], 9)
  else if strStartsWithCI s ("<strong>".data) then some ([], 8)
  else none

/-- `text.replace(/\*\*|\<\/?strong\>/gi, '')`. -/
def stripBoldTokens (s : Str) : Str := scanRepl stripBoldTokensMatcher s

/-- `DocumentParser.getHeadingLevel` (src/document-parser.js:644-726). -/
def getHeadingLevel (line : Str) : Nat :=
  let text := jsTrim line
  if testNumbered 0 text then 2
  else if testNumbered 1 text then 3
  else if testNumbered 2 text then 4
  else if hasBoldFormatting text
      && decide ((jsTrim (stripBoldMarkup text)).length ≤ 5) then
    -- isolated bold text: level by word count of the de-tokenised text
    let words := jsSplitWs (stripBoldTokens text)
    if words.length ≤ 3 then 2 else if words.length ≤ 6 then 3 else 4
  else if strEndsWith text ['?'] then 3
  else if (text == jsToUpper text) && testAllUpperWsDashColon text then
    let words := jsSplitWs text
    if words.length ≤ 3 then 2 else if words.length ≤ 6 then 3 else 4
  else
    let words := jsSplitWs text
    if decide (2 ≤ words.length) && decide (words.length ≤ 10)
        && titleCaseRatioOk (words.filter isTitleCaseWord).length words.length then
      if words.length ≤ 3 then 2 else if words.length ≤ 6 then 3 else 4
    else if strEndsWith text [':'] then 3
    else if containsSub text ("_".data) then 3
    else 2

end DP

/-!
Embedding of `SectionDetector` (src/unnamed/part_000).  Section buffers may
hold plain strings or, for the deferred table-of-contents call, objects
`{text, id, level}`; `SectionItem` covers both, with JS default object
stringification for the template interpolations that receive an object.
-/

/-- An element of a section buffer: a string, or a TOC heading record. -/
inductive SectionItem where
  | s (v : Str)
  | obj (text id : Str) (level : Nat)
deriving DecidableEq

/-- JS template interpolation of a buffer element (an object prints as
`[object Object]`). -/
def SectionItem.toStr : SectionItem → Str
  | .s v => v
  | .obj _ _ _ => "[object Object]".data

/-- JS truthiness of a buffer element (an object is always truthy, a string
is truthy when non-empty). -/
def SectionItem.truthy : SectionItem → Bool
  | .s v => v ≠ []
  | .obj _ _ _ => true

namespace SD

/-- `this.sectionMappings` (src/unnamed/part_000:8-86), in insertion order. -/
def sectionMappings : List (Str × Str) :=
  [("TABLE OF CONTENTS", "toc"), ("TOC", "toc"), ("CONTENTS", "toc"), ("INDEX", "toc"),
   ("<TABLE-OF-CONTENTS>", "toc"), ("<TOC>", "toc"),
   ("KEY TAKEAWAYS", "key-takeaways"), ("KEY POINTS", "key-takeaways"),
   ("MAIN POINTS", "key-takeaways"), ("SUMMARY POINTS", "key-takeaways"),
   ("HIGHLIGHTS", "key-takeaways"), ("IMPORTANT POINTS", "key-takeaways"),
   ("<KEY-TAKEAWAYS>", "key-takeaways"), ("<KEY-POINTS>", "key-takeaways"),
   ("CALL TO ACTION", "cta"), ("CTA", "cta"), ("CTA 1", "cta1"), ("CTA 2", "cta2"),
   ("GET STARTED", "cta"), ("CONTACT US", "cta"), ("READY TO START", "cta"),
   ("WANT TO BUILD", "cta"), ("NEED HELP", "cta"), ("GET IN TOUCH", "cta"),
   ("<CALL-TO-ACTION>", "cta"), ("<CTA>", "cta"),
   ("FAQ", "faq"), ("FREQUENTLY ASKED QUESTIONS", "faq"), ("COMMON QUESTIONS", "faq"),
   ("Q&A", "faq"), ("QUESTIONS", "faq"), ("<FAQ>", "faq"),
   ("STEPS", "steps"), ("STEP BY STEP", "steps"), ("PROCESS", "steps"),
   ("HOW TO", "steps"), ("TUTORIAL", "steps"), ("GUIDE", "steps"),
   ("<STEPS>", "steps"), ("<PROCESS>", "steps"),
   ("COMPARISON", "comparison"), ("VS", "comparison"),
   ("PROS AND CONS", "pros-cons"), ("ADVANTAGES AND DISADVANTAGES", "pros-cons"),
   ("BENEFITS AND DRAWBACKS", "pros-cons"),
   ("<COMPARISON>", "comparison"), ("<PROS-AND-CONS>", "pros-cons"),
   ("BENEFITS", "bullet-list"), ("FEATURES", "bullet-list"), ("ADVANTAGES", "bullet-list"),
   ("REQUIREMENTS", "bullet-list"), ("SPECIFICATIONS", "bullet-list"),
   ("<BENEFITS>", "bullet-list"), ("<FEATURES>", "bullet-list"),
   ("<IGNORE>", "ignore"),
   ("TABLE", "table"), ("[TABLE START]", "table"), ("<TABLE>", "table"),
   ("DATA TABLE", "table"), ("COMPARISON TABLE", "table")].map
    (fun kv => (kv.1.data, kv.2.data))

/-- JS property lookup `this.sectionMappings[key]` (`none` models `undefined`). -/
def lookupMapping (key : Str) : Option Str :=
  (sectionMappings.find? (fun kv => kv.1 == key)).map (fun kv => kv.2)

/-- `SectionDetector.isStartTag` (src/unnamed/part_000:128-130):
`text.startsWith('<') && text.endsWith('>') && !text.includes('END>')`. -/
def isStartTag (text : Str) : Bool :=
  strStartsWith text ("<".data) && strEndsWith text (">".data)
    && !(containsSub text ("END>".data))

/-- `SectionDetector.isEndTag` (src/unnamed/part_000:137-141):
`text.startsWith('<') && text.includes('END>') || text.includes('[TABLE END]')
 || text.includes('</TABLE>')`. -/
def isEndTag (text : Str) : Bool :=
  (strStartsWith text ("<".data) && containsSub text ("END>".data))
    || containsSub text ("[TABLE END]".data)
    || containsSub text ("</TABLE>".data)

/-- `SectionDetector.getSectionTypeFromTag` (src/unnamed/part_000:148-150). -/
def getSectionTypeFromTag (tag : Str) : Option Str :=
  lookupMapping tag

/-- `SectionDetector.detectSectionType` (src/unnamed/part_000:96-121): tag
lookup first, then exact dictionary lookup, then the restricted near-match
loop over `Object.entries` in insertion order. -/
def detectSectionType (headingText : Str) : Option Str :=
  let normalizedText := jsTrim (jsToUpper headingText)
  if isStartTag normalizedText then getSectionTypeFromTag normalizedText
  else
    match lookupMapping normalizedText with
    | some t => some t
    | none =>
      (sectionMappings.find? (fun kv =>
        normalizedText == kv.1
        || normalizedText == kv.1 ++ [':']
        || normalizedText == kv.1 ++ ['.']
        || (decide (normalizedText.length ≤ kv.1.length + 5)
             && containsSub normalizedText kv.1))).map (fun kv => kv.2)

/-- `SectionDetector.processRegularContent` (src/unnamed/part_000:464-466). -/
def processRegularContent (content : Str) : Str :=
  "<p>".data ++ content ++ "</p>".data

/-- The `questionWords` list of `isLikelyQuestion` (src/unnamed/part_000:454). -/
def questionWords : List Str :=
  ["how", "what", "when", "where", "why", "who", "which", "can", "will",
   "should", "is", "are", "do", "does"].map String.data

/-- `SectionDetector.isLikelyQuestion` (src/unnamed/part_000:453-457): the
first `' '`-separated word is an interrogative and the text is longer
than 10. -/
def isLikelyQuestion (text : Str) : Bool :=
  let firstWord := (splitAllOn ' ' (jsToLower text)).headD []
  questionWords.contains firstWord && decide (10 < text.length)

/-- One rendered question/answer group of `processFAQItems`. -/
def renderQA (q : Str) (answers : List Str) : Str :=
  "    <h3 id=\"".data ++ SD.generateId q ++ "\">".data ++ q ++ "</h3>\n".data
    ++ (answers.map (fun p => "    <p>".data ++ p ++ "</p>\n".data)).flatten

/-- Loop of `SectionDetector.processFAQItems` (src/unnamed/part_000:394-446),
with the accumulated `currentQuestion` (empty string when unset, as in the
source) and `answerParagraphs`; the trailing cases are the two flushes after
the loop. -/
def processFAQGo (currentQuestion : Str) (answers : List Str) : List Str → Str
  | [] =>
    if currentQuestion ≠ [] ∧ answers ≠ [] then renderQA currentQuestion answers
    else if currentQuestion = [] ∧ answers ≠ [] then
      (answers.map (fun p => "    <p>".data ++ p ++ "</p>\n".data)).flatten
    else []
  | item0 :: rest =>
    let item := jsTrim item0
    if item = [] then processFAQGo currentQuestion answers rest
    else if strEndsWith item ['?'] || isLikelyQuestion item then
      (if currentQuestion ≠ [] ∧ answers ≠ [] then
        renderQA currentQuestion answers ++ "\n".data
       else [])
        ++ processFAQGo item [] rest
    else if currentQuestion ≠ [] then
      processFAQGo currentQuestion (answers ++ [item]) rest
    else if decide (20 < item.length) then
      processFAQGo currentQuestion (answers ++ [item]) rest
    else processFAQGo currentQuestion answers rest

/-- `SectionDetector.processFAQItems` (src/unnamed/part_000:394-446). -/
def processFAQItems (items : List Str) : Str :=
  processFAQGo [] [] items

end SD

namespace SD

/-- `items[i] || default` for the CTA templates: the positional item if
present and truthy, else the documented default. -/
def itemOr (items : List SectionItem) (i : Nat) (d : Str) : Str :=
  match items[i]? with
  | some it => if it.truthy then it.toStr else d
  | none => d

/-- JS `split(/\t|\s{3,}/)` (fueled; each step consumes at least one
character, so `s.length` fuel is exact).  At each position a single tab is
preferred (first alternative), else a maximal whitespace run of length ≥ 3
separates. -/
def splitTabWs3Go : Nat → Str → List Str
  | 0, s => [s]
  | _ + 1, [] => [[]]
  | fuel + 1, c :: rest =>
    if c == '\t' then [] :: splitTabWs3Go fuel rest
    else
      let run := (c :: rest).takeWhile jsIsWs
      if 3 ≤ run.length then [] :: splitTabWs3Go fuel ((c :: rest).drop run.length)
      else
        match splitTabWs3Go fuel rest with
        | [] => [[c]]
        | p :: ps => (c :: p) :: ps

/-- JS `split(/\t|\s{3,}/)`. -/
def splitTabWs3 (s : Str) : List Str := splitTabWs3Go s.length s

/-- Loop of `SectionDetector.processTableItems` (src/unnamed/part_000:492-522):
classifies each buffered line into header (index 0) or data columns.
`idx` is the index in the original array, as in the source's `i === 0` test. -/
def tableScan (idx : Nat) (headers : List Str) (dat : List (List Str)) :
    List Str → (List Str × List (List Str))
  | [] => (headers, dat)
  | item0 :: rest =>
    let item := jsTrim item0
    if item = [] then tableScan (idx + 1) headers dat rest
    else
      let columns :=
        if containsSub item ("|".data) then
          ((splitAllOn '|' item).map jsTrim).filter (fun col => col ≠ [])
        else if containsSub item ("\t".data) || testWs3 item then
          ((splitTabWs3 item).map jsTrim).filter (fun col => col ≠ [])
        else [item]
      if idx = 0 then tableScan (idx + 1) columns dat rest
      else tableScan (idx + 1) headers (dat ++ [columns]) rest

/-- One `<th>` cell of the generated table. -/
def tableTh (colWidth : Nat) (header : Str) : Str :=
  "                <th style=\"width: ".data ++ natToStr colWidth ++ "%;\">".data
    ++ header ++ "</th>\n".data

/-- One data row of the generated table, right-padded to the header width. -/
def tableTr (headerLen : Nat) (row : List Str) : Str :=
  let padded := row ++ List.replicate (headerLen - row.length) []
  "\n            <tr>\n".data
    ++ (padded.map (fun cell => "                <td>".data ++ cell ++ "</td>\n".data)).flatten
    ++ "            </tr>".data

/-- `SectionDetector.processTableItems` (src/unnamed/part_000:485-559). -/
def processTableItems (items : List Str) : Str :=
  if items = [] then []
  else
    let hd := tableScan 0 [] [] items
    let headers := hd.1
    let tableData := hd.2
    "\n<div class=\"table-responsive travel_table v-middle\">\n    <table class=\"table table-bordered\" dir=\"ltr\" border=\"1\" cellspacing=\"0\" cellpadding=\"0\">\n        <tbody>".data
      ++ (if 0 < headers.length then
            "\n            <tr>\n".data
              ++ (headers.map (tableTh (100 / headers.length))).flatten
              ++ "            </tr>".data
          else [])
      ++ (tableData.map (tableTr headers.length)).flatten
      ++ "\n        </tbody>\n    </table>\n</div>".data

/-- One `<li>` of the `toc` template (the three `typeof` cases of the
item mapper). -/
def tocLi : SectionItem → Str
  | .obj text id _ =>
    if text ≠ [] ∧ id ≠ [] then
      "        <li><a href=\"#".data ++ id ++ "\">".data ++ text ++ "</a></li>".data
    else "        <li>[object Object]</li>".data
  | .s v =>
    "        <li><a href=\"#".data ++ SD.generateId v ++ "\">".data ++ v ++ "</a></li>".data

/-- The `toc` template (src/unnamed/part_000:183-200). -/
def tplToc (items : List SectionItem) : Str :=
  if items.length = 0 then []
  else
    "\n<div class=\"blog_index_cover\">\n    <p class=\"blog_index_toggle_btn fonts-16 w-700\">Table Of Contents</p>\n    <ol class=\"blog_index\" style=\"display: none;\">\n".data
      ++ joinWith ("\n".data) (items.map tocLi)
      ++ "\n    </ol>\n</div>".data

/-- The `key-takeaways` template (src/unnamed/part_000:202-207). -/
def tplKeyTakeaways (items : List SectionItem) : Str :=
  "\n<ul class=\"kta-list\">\n    <p>Key Takeaways</p>\n".data
    ++ joinWith ("\n".data)
        (items.map (fun it => "    <li>".data ++ it.toStr ++ "</li>".data))
    ++ "\n</ul>".data

/-- The `cta` template (src/unnamed/part_000:210-231). -/
def tplCta (items : List SectionItem) : Str :=
  let heading := itemOr items 0 ("Ready to Get Started?".data)
  let description := itemOr items 1 ("Get in touch with our experienced team for a free consultation.".data)
  let buttonText := itemOr items 2 ("Schedule Free Consultation".data)
  let imageUrl := itemOr items 3 ("https://www.spaceotechnologies.com/wp-content/uploads/2023/04/cta-img.png".data)
  "\n<div class=\"callout_newbox\">\n    <div class=\"left-part\">\n        <p class=\"call_heading\">".data
    ++ heading
    ++ "</p>\n        <p>".data ++ description
    ++ "</p>\n        <div class=\"sec-btn\">\n            <button class=\"btn mb0 mt15 open-qouteform\" type=\"button\" data-medium=\"B_1\">\n                ".data
    ++ buttonText
    ++ " <strong class=\"aero_icon\"></strong>\n            </button>\n        </div>\n    </div>\n    <div class=\"right-part\">\n        <img src=\"".data
    ++ imageUrl
    ++ "\" alt=\"CTA Image\" width=\"278\" height=\"337\" class=\"alignnone size-full wp-image-194985\" />\n    </div>\n</div>".data

/-- The `cta1` template (src/unnamed/part_000:233-270); the `<style>` block's
braces are written `\x7b`/`\x7d`. -/
def tplCta1 (items : List SectionItem) : Str :=
  let heading := itemOr items 0 ("Want To Create An Android Application?".data)
  let description := itemOr items 1 ("Looking to Create An Android app? Get in touch with our experienced Android app developers for a free consultation.".data)
  let buttonText := itemOr items 2 ("Schedule Free Consultation".data)
  let imageUrl := itemOr items 3 ("https://www.spaceotechnologies.com/wp-content/uploads/2023/04/cta-img.png".data)
  "\n<div class=\"callout_newbox\" style=\"display: flex; align-items: center; background: #f8f9fa; padding: 30px; border-radius: 10px; margin: 20px 0; max-width: 100%; overflow: hidden;\">\n    <div class=\"left-part\" style=\"flex: 1; padding-right: 30px; min-width: 0;\">\n        <h3 class=\"call_heading\" style=\"font-size: 24px; font-weight: bold; margin: 0 0 15px 0; color: #333; line-height: 1.3;\">".data
    ++ heading
    ++ "</h3>\n        <p style=\"font-size: 16px; line-height: 1.6; color: #666; margin: 0 0 20px 0;\">".data
    ++ description
    ++ "</p>\n        <div class=\"sec-btn\">\n            <button class=\"btn mb0 mt15 open-qouteform\" type=\"button\" data-medium=\"B_1\" style=\"background: #e74c3c; color: white; padding: 12px 25px; border: none; border-radius: 5px; font-weight: bold; cursor: pointer; font-size: 14px;\">\n                ".data
    ++ buttonText
    ++ " <strong class=\"aero_icon\" style=\"margin-left: 5px;\">→</strong>\n            </button>\n        </div>\n    </div>\n    <div class=\"right-part\" style=\"flex: 0 0 280px; max-width: 280px;\">\n        <img src=\"".data
    ++ imageUrl
    ++ "\" alt=\"Cta Image\" style=\"width: 100%; height: auto; border-radius: 10px; display: block;\" />\n    </div>\n</div>\n<style>\n@media (max-width: 768px) \x7b\n    .callout_newbox \x7b\n        flex-direction: column !important;\n        text-align: center !important;\n    \x7d\n    .callout_newbox .left-part \x7b\n        padding-right: 0 !important;\n        margin-bottom: 20px !important;\n    \x7d\n    .callout_newbox .right-part \x7b\n        flex: none !important;\n        max-width: 250px !important;\n        margin: 0 auto !important;\n    \x7d\n\x7d\n</style>".data

/-- The `cta2` template (src/unnamed/part_000:273-288). -/
def tplCta2 (items : List SectionItem) : Str :=
  let heading := itemOr items 0 ("Get a Free Mobile App Development Strategy Session".data)
  let description := itemOr items 1 ("Discover the best approach to building a custom mobile app tailored to your business. Get expert insights with no obligation.".data)
  let buttonText := itemOr items 2 ("Claim My Free Strategy Session".data)
  "\n<div class=\"callout_box\">\n    <p class=\"call_heading\">".data
    ++ heading
    ++ "</p>\n    <p>".data ++ description
    ++ "</p>\n    <div class=\"sec-btn\">\n        <button class=\"btn mb0 mt15 newsletter-green\" type=\"button\" data-toggle=\"modal\" data-target=\"#popform\">\n            ".data
    ++ buttonText
    ++ " <strong class=\"aero_icon\"></strong>\n        </button>\n    </div>\n</div>".data

/-- The `faq` template (src/unnamed/part_000:290-297). -/
def tplFaq (items : List SectionItem) : Str :=
  let faqItems := processFAQItems (items.map SectionItem.toStr)
  "\n<div class=\"faq_blog\">\n    <h2 id=\"frequently-asked-questions\">Frequently Asked Questions</h2>\n".data
    ++ faqItems
    ++ "\n</div>".data

/-- One `<li>` of the `steps` template: `item.split(':')`, title from
`parts[0]` (or the auto-number when falsy), description from
`parts.slice(1).join(':').trim()` (or the whole item when falsy). -/
def stepsLi (idx : Nat) (item : Str) : Str :=
  let parts := splitAllOn ':' item
  let title :=
    match parts with
    | p0 :: _ => if p0 = [] then "Step ".data ++ natToStr (idx + 1) else p0
    | [] => "Step ".data ++ natToStr (idx + 1)
  let description :=
    let d := jsTrim (joinWith [':'] (parts.drop 1))
    if d = [] then item else d
  "    <li>\n        <h3>".data ++ title ++ "</h3>\n        <p>".data
    ++ description ++ "</p>\n    </li>".data

/-- The `steps` template (src/unnamed/part_000:299-312). -/
def tplSteps (items : List SectionItem) : Str :=
  "\n<ol class=\"listing-bx\">\n".data
    ++ joinWith ("\n".data)
        (items.enum.map (fun p => stepsLi p.1 p.2.toStr))
    ++ "\n</ol>".data

/-- The `pros-cons` template (src/unnamed/part_000:314-342): the first
`Math.ceil(items.length / 2)` lines are pros, the rest cons. -/
def tplProsCons (items : List SectionItem) : Str :=
  let midPoint := (items.length + 1) / 2
  let pros := items.take midPoint
  let cons := items.drop midPoint
  let li := fun (it : SectionItem) =>
    "                        <li><span style=\"font-weight: 400;\">".data
      ++ it.toStr ++ "</span></li>".data
  "\n<div class=\"table-responsive expense_track\">\n    <table class=\"table table-bordered table-striped\" dir=\"ltr\" border=\"1\" cellspacing=\"0\" cellpadding=\"0\">\n        <tbody>\n            <tr>\n                <th style=\"text-align: center; background: green; color: #fff; width: 50%;\"><strong>Pros</strong></th>\n                <th style=\"text-align: center; background: red; color: #fff; width: 50%;\">Cons</th>\n            </tr>\n            <tr>\n                <td>\n                    <ul class=\"pros\" style=\"padding: 0; margin: 0;\">\n".data
    ++ joinWith ("\n".data) (pros.map li)
    ++ "\n                    </ul>\n                </td>\n                <td>\n                    <ul class=\"cons\" style=\"padding: 0; margin: 0;\">\n".data
    ++ joinWith ("\n".data) (cons.map li)
    ++ "\n                    </ul>\n                </td>\n            </tr>\n        </tbody>\n    </table>\n</div>".data

/-- The `bullet-list` template (src/unnamed/part_000:344-349). -/
def tplBulletList (items : List SectionItem) : Str :=
  "\n<ul class=\"bullet-new-box\">\n".data
    ++ joinWith ("\n".data)
        (items.map (fun it => "    <li>".data ++ it.toStr ++ "</li>".data))
    ++ "\n</ul>".data

/-- One row of the `comparison` template: a `|`-split line with at least
three fields becomes three cells, anything else a single merged cell. -/
def comparisonRow (it : SectionItem) : Str :=
  let item := it.toStr
  let parts := (splitAllOn '|' item).map jsTrim
  if 3 ≤ parts.length then
    "        <tr>\n            <td>".data ++ parts.headD []
      ++ "</td>\n            <td>".data ++ (parts.drop 1).headD []
      ++ "</td>\n            <td>".data ++ (parts.drop 2).headD []
      ++ "</td>\n        </tr>".data
  else
    "        <tr><td colspan=\"3\">".data ++ item ++ "</td></tr>".data

/-- The `comparison` template (src/unnamed/part_000:351-376). -/
def tplComparison (items : List SectionItem) : Str :=
  "\n<table class=\"comparison-table table table-bordered\">\n    <thead>\n        <tr class=\"table-header\">\n            <th>Feature</th>\n            <th>Option 1</th>\n            <th>Option 2</th>\n        </tr>\n    </thead>\n    <tbody>\n".data
    ++ joinWith ("\n".data) (items.map comparisonRow)
    ++ "\n    </tbody>\n</table>".data

/-- The `ignore` template (src/unnamed/part_000:378-381): always empty. -/
def tplIgnore (_items : List SectionItem) : Str := []

/-- `SectionDetector.processSectionContent` (src/unnamed/part_000:168-175):
template dispatch over the keys of `initializeSectionTemplates`, falling
through to `processRegularContent` for unknown tags. -/
def processSectionContent (sectionType : Str) (content : Str)
    (items : List SectionItem) : Str :=
  if sectionType == "toc".data then tplToc items
  else if sectionType == "key-takeaways".data then tplKeyTakeaways items
  else if sectionType == "cta".data then tplCta items
  else if sectionType == "cta1".data then tplCta1 items
  else if sectionType == "cta2".data then tplCta2 items
  else if sectionType == "faq".data then tplFaq items
  else if sectionType == "steps".data then tplSteps items
  else if sectionType == "pros-cons".data then tplProsCons items
  else if sectionType == "bullet-list".data then tplBulletList items
  else if sectionType == "comparison".data then tplComparison items
  else if sectionType == "ignore".data then tplIgnore items
  else if sectionType == "table".data then processTableItems (items.map SectionItem.toStr)
  else processRegularContent content

/-- The keys of the template table, in source order. -/
def templateKeys : List Str :=
  ["toc", "key-takeaways", "cta", "cta1", "cta2", "faq", "steps", "pros-cons",
   "bullet-list", "comparison", "ignore", "table"].map String.data

end SD

/-!
Embedding of `DocumentParser.cleanupHTML` (src/document-parser.js:897-959)
and its helper regexes.
-/

/-- Index of the first case-sensitive occurrence of `pat` in `s`. -/
def findSubIdx (pat : Str) : Str → Option Nat
  | [] => if pat = [] then some 0 else none
  | c :: rest =>
    if strStartsWith (c :: rest) pat then some 0
    else (findSubIdx pat rest).map (· + 1)

/-- Index of the first case-insensitive occurrence of `pat` in `s`. -/
def findSubIdxCI (pat : Str) : Str → Option Nat
  | [] => if pat = [] then some 0 else none
  | c :: rest =>
    if strStartsWithCI (c :: rest) pat then some 0
    else (findSubIdxCI pat rest).map (· + 1)

/-- JS `String.prototype.replace` with a plain-string pattern: replaces the
first occurrence only. -/
def replaceFirst (pat repl s : Str) : Str :=
  match findSubIdx pat s with
  | some i => s.take i ++ repl ++ s.drop (i + pat.length)
  | none => s

/-- Worker for `collectBlocks` (fueled global scan). -/
def collectBlocksGo (openLit closeLit : Str) : Nat → Str → List Str
  | 0, _ => []
  | _ + 1, [] => []
  | fuel + 1, c :: rest =>
    let s := c :: rest
    if strStartsWithCI s openLit then
      match findSubIdxCI closeLit (s.drop openLit.length) with
      | some i =>
        let len := openLit.length + i + closeLit.length
        s.take len :: collectBlocksGo openLit closeLit fuel (s.drop len)
      | none => collectBlocksGo openLit closeLit fuel rest
    else collectBlocksGo openLit closeLit fuel rest

/-- `html.match(/OPEN[\s\S]*?CLOSE/gi)`: all matches of an opening literal
followed lazily by anything up to the first closing literal. -/
def collectBlocks (openLit closeLit s : Str) : List Str :=
  collectBlocksGo openLit closeLit s.length s

namespace DP

/-- Matcher for `/<p>\s*<\/p>/gi`. -/
def emptyPMatcher (s : Str) : Option (Str × Nat) :=
  if strStartsWithCI s ("<p>".data) then
    let r := s.drop 3
    let w := r.takeWhile jsIsWs
    if strStartsWithCI (r.drop w.length) ("</p>".data) then
      some ([], 3 + w.length + 4)
    else none
  else none

/-- Matcher for `/<p>\s+<\/p>/gi` (at least one whitespace character). -/
def wsOnlyPMatcher (s : Str) : Option (Str × Nat) :=
  if strStartsWithCI s ("<p>".data) then
    let r := s.drop 3
    let w := r.takeWhile jsIsWs
    if w ≠ [] && strStartsWithCI (r.drop w.length) ("</p>".data) then
      some ([], 3 + w.length + 4)
    else none
  else none

/-- Matcher for `/\n\s*\n\s*\n/g`: with greedy backtracking the match runs
from the first to the last newline of a maximal whitespace run containing at
least three newlines, and is replaced by two newlines. -/
def nlRunsMatcher (s : Str) : Option (Str × Nat) :=
  match s with
  | '\n' :: _ =>
    let run := s.takeWhile jsIsWs
    if 3 ≤ (run.filter (· == '\n')).length then
      let tailNonNl := (run.reverse.takeWhile (· != '\n')).length
      some ("\n\n".data, run.length - tailNonNl)
    else none
  | _ => none

/-- Matcher for `/\n{3,}/g` (maximal run of at least three newlines). -/
def nl3Matcher (s : Str) : Option (Str × Nat) :=
  match s with
  | '\n' :: _ =>
    let run := s.takeWhile (· == '\n')
    if 3 ≤ run.length then some ("\n\n".data, run.length) else none
  | _ => none

/-- Matcher for `/<TAG[^>]*?>\s*<\/TAG>/gi` (empty list containers; the lazy
`[^>]*?>` takes the attributes up to the first `>`). -/
def emptyBlockMatcher (openLit closeLit : Str) (needNl : Bool) (s : Str) :
    Option (Str × Nat) :=
  if strStartsWithCI s openLit then
    let r := s.drop openLit.length
    let attrs := r.takeWhile (· != '>')
    match r.drop attrs.length with
    | '>' :: r2 =>
      let w := r2.takeWhile jsIsWs
      if (!needNl || w.contains '\n') && strStartsWithCI (r2.drop w.length) closeLit then
        some ([], openLit.length + attrs.length + 1 + w.length + closeLit.length)
      else none
    | _ => none
  else none

/-- Matcher for `/<li>\s*<\/li>/gi`. -/
def emptyLiMatcher (s : Str) : Option (Str × Nat) :=
  if strStartsWithCI s ("<li>".data) then
    let r := s.drop 4
    let w := r.takeWhile jsIsWs
    if strStartsWithCI (r.drop w.length) ("</li>".data) then
      some ([], 4 + w.length + 5)
    else none
  else none

/-- Matcher for `/\s{2,}/g` (maximal whitespace run of length at least two,
replaced by a single space). -/
def ws2Matcher (s : Str) : Option (Str × Nat) :=
  match s with
  | c :: _ =>
    if jsIsWs c then
      let run := s.takeWhile jsIsWs
      if 2 ≤ run.length then some ([' '], run.length) else none
    else none
  | [] => none

/-- One `<br\s*\/?>` unit: returns the consumed length. -/
def parseBrUnit (s : Str) : Option Nat :=
  if strStartsWithCI s ("<br".data) then
    let r := s.drop 3
    let w := r.takeWhile jsIsWs
    match r.drop w.length with
    | '/' :: '>' :: _ => some (3 + w.length + 2)
    | '>' :: _ => some (3 + w.length + 1)
    | _ => none
  else none

/-- Maximal run of consecutive `<br>` units (count and total length). -/
def brRunGo : Nat → Str → Nat × Nat
  | 0, _ => (0, 0)
  | fuel + 1, s =>
    match parseBrUnit s with
    | some n =>
      let p := brRunGo fuel (s.drop n)
      (p.1 + 1, n + p.2)
    | none => (0, 0)

/-- Matcher for `/(<br\s*\/?>){2,}/gi`. -/
def brMatcher (s : Str) : Option (Str × Nat) :=
  let p := brRunGo s.length s
  if 2 ≤ p.1 then some ("<br>".data, p.2) else none

/-- Maximal run of consecutive `&nbsp;` literals (count and total length). -/
def nbspRunGo : Nat → Str → Nat × Nat
  | 0, _ => (0, 0)
  | fuel + 1, s =>
    if strStartsWithCI s ("&nbsp;".data) then
      let p := nbspRunGo fuel (s.drop 6)
      (p.1 + 1, 6 + p.2)
    else (0, 0)

/-- Matcher for `/(&nbsp;){2,}/gi`. -/
def nbspMatcher (s : Str) : Option (Str × Nat) :=
  let p := nbspRunGo s.length s
  if 2 ≤ p.1 then some ("&nbsp;".data, p.2) else none

/-- Does `s` begin with the closing tag of a heading, `<\/h[1-6]>`
(`h` case-insensitive)? -/
def isCloseHeading (s : Str) : Bool :=
  match s with
  | '<' :: '/' :: h :: d :: '>' :: _ =>
    (h == 'h' || h == 'H') && '1' ≤ d && d ≤ '6'
  | _ => false

/-- The `(.*?)<\/h[1-6]>` continuation: shortest newline-free text up to a
closing heading tag; returns the text and the consumed length including the
five-character closing tag. -/
def lazyCloseHeading : Str → Option (Str × Nat)
  | [] => none
  | c :: rest =>
    if isCloseHeading (c :: rest) then some ([], 5)
    else if c != '\n' then
      (lazyCloseHeading rest).map (fun p => (c :: p.1, p.2 + 1))
    else none

/-- Parse `/<h([1-6])([^>]*?)>(.*?)<\/h[1-6]>/i` at the start of `s`:
returns the level digit, attribute text, heading text and total length. -/
def parseHeading (s : Str) : Option (Char × Str × Str × Nat) :=
  match s with
  | '<' :: h :: d :: rest =>
    if (h == 'h' || h == 'H') && '1' ≤ d && d ≤ '6' then
      let attrs := rest.takeWhile (· != '>')
      match rest.drop attrs.length with
      | '>' :: r2 =>
        match lazyCloseHeading r2 with
        | some (text, n) => some (d, attrs, text, 3 + attrs.length + 1 + n)
        | none => none
      | _ => none
    else none
  | _ => none

/-- Stateful matcher for the duplicate-heading removal of `cleanupHTML`
(step 2): the seen-set holds keys `h<level>:<trimmed text>`; a repeated key
is replaced by the empty string, a fresh one is kept verbatim. -/
def dedupHeadingMatcher (seen : List Str) (s : Str) :
    Option (Str × Nat × List Str) :=
  match parseHeading s with
  | some (d, _, text, n) =>
    let key := 'h' :: d :: ':' :: jsTrim text
    if seen.contains key then some ([], n, seen)
    else some (s.take n, n, seen ++ [key])
  | none => none

/-- `DocumentParser.cleanupHTML` (src/document-parser.js:897-959), the nine
numbered steps in source order. -/
def cleanupHTML (html : Str) : Str :=
  -- 1. keep only the first table-of-contents block
  let tocSections := collectBlocks ("<div class=\"blog_index_cover\"".data) ("</div>".data) html
  let h1 :=
    if 1 < tocSections.length then
      (tocSections.drop 1).foldl (fun acc t => replaceFirst t [] acc) html
    else html
  -- 2. remove duplicate headings with the same level digit and text
  let h2 := scanStRepl dedupHeadingMatcher (fun st _ => st) [] h1
  -- 3. keep only the first FAQ block
  let faqSections := collectBlocks ("<div class=\"faq_blog\"".data) ("</div>".data) h2
  let h3 :=
    if 1 < faqSections.length then
      (faqSections.drop 1).foldl (fun acc t => replaceFirst t [] acc) h2
    else h2
  -- 4. empty paragraphs and redundant newlines
  let h4 := scanRepl nl3Matcher (scanRepl nlRunsMatcher
    (scanRepl wsOnlyPMatcher (scanRepl emptyPMatcher h3)))
  -- 5. empty lists
  let h5 := scanRepl (emptyBlockMatcher ("<ol".data) ("</ol>".data) true)
    (scanRepl (emptyBlockMatcher ("<ul".data) ("</ul>".data) true)
      (scanRepl (emptyBlockMatcher ("<ol".data) ("</ol>".data) false)
        (scanRepl (emptyBlockMatcher ("<ul".data) ("</ul>".data) false) h4)))
  -- 6. list items with only whitespace
  let h6 := scanRepl emptyLiMatcher h5
  -- 7. duplicate consecutive whitespace
  let h7 := scanRepl ws2Matcher h6
  -- 8. duplicated stray tags
  let h8 := scanRepl nbspMatcher (scanRepl brMatcher h7)
  -- 9. trim
  jsTrim h8

end DP

namespace DP

/-- Remainders after 1, 2, 3, … successful `\d+\.` consumptions (fueled;
each consumption removes at least two characters). -/
def numDotChainGo : Nat → Str → List Str
  | 0, _ => []
  | fuel + 1, s =>
    match dropNumDot s with
    | some r => r :: numDotChainGo fuel r
    | none => []

/-- `replace(/^\d+(\.\d+)*\.\s+/, '')`: the pattern is `^(\d+\.)+\s+`; greedy
backtracking takes the largest repetition count whose remainder starts with
whitespace, then strips that whitespace run. -/
def stripNumPrefix (s : Str) : Str :=
  match (numDotChainGo s.length s).reverse.find? (fun r => r.takeWhile jsIsWs ≠ []) with
  | some r => r.dropWhile jsIsWs
  | none => s

/-- Matcher for `replace(/\*\*(.*?)\*\*/g, '<strong>$1</strong>')`. -/
def mdBoldMatcher (s : Str) : Option (Str × Nat) :=
  if strStartsWith s ("**".data) then
    match lazyClose false ("**".data) (s.drop 2) with
    | some (inner, _) =>
      some ("<strong>".data ++ inner ++ "</strong>".data, 4 + inner.length)
    | none => none
  else none

/-- Matcher for `replace(/<strong>(.*?)<\/strong>/gi, '<strong>$1</strong>')`
(normalises the tag case, keeps the inner text). -/
def strongNormMatcher (s : Str) : Option (Str × Nat) :=
  if strStartsWithCI s ("<strong>".data) then
    match lazyClose true ("</strong>".data) (s.drop 8) with
    | some (inner, _) =>
      some ("<strong>".data ++ inner ++ "</strong>".data, 17 + inner.length)
    | none => none
  else none

/-- Matcher for `replace(/_{2,}/g, '')`. -/
def underscoreRunMatcher (s : Str) : Option (Str × Nat) :=
  match s with
  | '_' :: _ =>
    let run := s.takeWhile (· == '_')
    if 2 ≤ run.length then some ([], run.length) else none
  | _ => none

/-- `replace(/:$/, '')`. -/
def stripTrailingColon (s : Str) : Str :=
  if strEndsWith s [':'] then s.dropLast else s

/-- `DocumentParser.cleanHeadingText` (src/document-parser.js:728-745). -/
def cleanHeadingText (line : Str) : Str :=
  let c1 := jsTrim line
  let c2 := stripNumPrefix c1
  let c3 := scanRepl mdBoldMatcher c2
  let c4 := scanRepl strongNormMatcher c3
  let c5 := scanRepl underscoreRunMatcher c4
  jsTrim (stripTrailingColon c5)

/-- `DocumentParser.isListItem` (src/document-parser.js:747-749):
`/^[-•*]\s+/.test(line) || /^\d+\.\s+/.test(line)`. -/
def isListItem (line : Str) : Bool :=
  testBulletWs line || testNumbered 0 line

/-- `DocumentParser.getListType` (src/document-parser.js:751-753). -/
def getListType (line : Str) : Str :=
  if testNumDot line then "ordered".data else "unordered".data

/-- `DocumentParser.cleanListItem` (src/document-parser.js:755-757):
`line.replace(/^[-•*\d+.]\s+/, '').trim()` — note the class matches one
single character, so `12. x` is not stripped. -/
def cleanListItem (line : Str) : Str :=
  jsTrim
    (match line with
     | c :: rest =>
       if (c == '-' || c == '•' || c == '*' || isDigitCh c || c == '+' || c == '.')
           && rest.takeWhile jsIsWs ≠ [] then
         rest.dropWhile jsIsWs
       else line
     | [] => line)

/-- `DocumentParser.openList` (src/document-parser.js:759-763). -/
def openList (type0 : Str) : Str :=
  let className := if type0 == "ordered".data then "listing-bx".data else "bullet-new-box".data
  let tag := if type0 == "ordered".data then "ol".data else "ul".data
  "<".data ++ tag ++ " class=\"".data ++ className ++ "\">\n".data

/-- `DocumentParser.closeList` (src/document-parser.js:765-768); the argument
is the `currentListType` variable, which may be `null`. -/
def closeList (type0 : Option Str) : Str :=
  let tag := if type0 == some ("ordered".data) then "ol".data else "ul".data
  "</".data ++ tag ++ ">\n".data

/-- Worker for JS `split(/\s{3,}/)` (fueled; every step consumes at least one
character). -/
def splitWs3Go : Nat → Str → List Str
  | 0, s => [s]
  | _ + 1, [] => [[]]
  | fuel + 1, c :: rest =>
    let run := (c :: rest).takeWhile jsIsWs
    if 3 ≤ run.length then [] :: splitWs3Go fuel ((c :: rest).drop run.length)
    else
      match splitWs3Go fuel rest with
      | [] => [[c]]
      | p :: ps => (c :: p) :: ps

/-- JS `split(/\s{3,}/)`. -/
def splitWs3 (s : Str) : List Str := splitWs3Go s.length s

/-- `DocumentParser.isTableRow` (src/document-parser.js:1020-1037). -/
def isTableRow (line : Str) : Bool :=
  (containsSub line ("|".data) && decide (2 ≤ (splitAllOn '|' line).length))
  || (containsSub line ("\t".data) && decide (2 ≤ (splitAllOn '\t' line).length))
  || (testWs3 line && decide (2 ≤ (splitWs3 line).length))

/-- `DocumentParser.collectTableRows` (src/document-parser.js:1045-1080) on
the suffix of the line array starting at the current index; `haveRows`
is `tableRows.length > 0`. -/
def collectTableRowsGo (haveRows : Bool) : List Str → List Str
  | [] => []
  | l :: rest =>
    let line := jsTrim l
    if line = [] then
      if haveRows then
        match rest.dropWhile (fun x => (jsTrim x).isEmpty) with
        | [] => []
        | nxt :: _ => if isTableRow nxt then collectTableRowsGo true rest else []
      else collectTableRowsGo false rest
    else if isTableRow line then line :: collectTableRowsGo true rest
    else []

/-- `DocumentParser.collectTableRows` from a start index. -/
def collectTableRows (suffix : List Str) : List Str :=
  collectTableRowsGo false suffix

/-- Matcher for `replace(/__(.*?)__/g, '<strong>$1</strong>')`. -/
def dunderMatcher (s : Str) : Option (Str × Nat) :=
  if strStartsWith s ("__".data) then
    match lazyClose false ("__".data) (s.drop 2) with
    | some (inner, _) =>
      some ("<strong>".data ++ inner ++ "</strong>".data, 4 + inner.length)
    | none => none
  else none

/-- Matcher for `replace(/(?<!\*)\*([^*]+)\*(?!\*)/g, '<em>$1</em>')`; the
state is the previous character of the input (for the lookbehind). -/
def emStarMatcher (prev : Option Char) (s : Str) :
    Option (Str × Nat × Option Char) :=
  match s with
  | '*' :: rest =>
    if prev == some '*' then none
    else
      let inner := rest.takeWhile (· != '*')
      if inner ≠ [] then
        match rest.drop inner.length with
        | '*' :: after =>
          match after with
          | '*' :: _ => none
          | _ =>
            some ("<em>".data ++ inner ++ "</em>".data, 2 + inner.length, some '*')
        | _ => none
      else none
  | _ => none

/-- Matcher for `replace(/(?<!_)_([^_]+)_(?!_)/g, '<em>$1</em>')`. -/
def emUnderscoreMatcher (prev : Option Char) (s : Str) :
    Option (Str × Nat × Option Char) :=
  match s with
  | '_' :: rest =>
    if prev == some '_' then none
    else
      let inner := rest.takeWhile (· != '_')
      if inner ≠ [] then
        match rest.drop inner.length with
        | '_' :: after =>
          match after with
          | '_' :: _ => none
          | _ =>
            some ("<em>".data ++ inner ++ "</em>".data, 2 + inner.length, some '_')
        | _ => none
      else none
  | _ => none

/-- Matcher for `replace(/\[([^\]]+)\]\(([^)]+)\)/g, '<a href="$2">$1</a>')`. -/
def linkMatcher (s : Str) : Option (Str × Nat) :=
  match s with
  | '[' :: rest =>
    let t := rest.takeWhile (· != ']')
    if t ≠ [] then
      match rest.drop t.length with
      | ']' :: '(' :: r2 =>
        let u := r2.takeWhile (· != ')')
        if u ≠ [] then
          match r2.drop u.length with
          | ')' :: _ =>
            some ("<a href=\"".data ++ u ++ "\">".data ++ t ++ "</a>".data,
              1 + t.length + 2 + u.length + 1)
          | _ => none
        else none
      | _ => none
    else none
  | _ => none

/-- `DocumentParser.formatRichText` (src/document-parser.js:966-984): the five
successive global replaces. -/
def formatRichText (text : Str) : Str :=
  let f1 := scanRepl mdBoldMatcher text
  let f2 := scanRepl dunderMatcher f1
  let f3 := scanStRepl emStarMatcher (fun _ c => some c) none f2
  let f4 := scanStRepl emUnderscoreMatcher (fun _ c => some c) none f3
  scanRepl linkMatcher f4

end DP

namespace DP

/-- Does `s` begin with `<\/h[2-4]>` (`h` case-insensitive)? -/
def isCloseHeading24 (s : Str) : Bool :=
  match s with
  | '<' :: '/' :: h :: d :: '>' :: _ =>
    (h == 'h' || h == 'H') && '2' ≤ d && d ≤ '4'
  | _ => false

/-- The `(.*?)<\/h[2-4]>` continuation (shortest newline-free text up to a
level-2–4 closing tag). -/
def lazyCloseHeading24 : Str → Option (Str × Nat)
  | [] => none
  | c :: rest =>
    if isCloseHeading24 (c :: rest) then some ([], 5)
    else if c != '\n' then
      (lazyCloseHeading24 rest).map (fun p => (c :: p.1, p.2 + 1))
    else none

/-- Parse `/<h([2-4])([^>]*?)>(.*?)<\/h[2-4]>/i` at the start of `s`. -/
def parseHeading24 (s : Str) : Option (Char × Str × Str × Nat) :=
  match s with
  | '<' :: h :: d :: rest =>
    if (h == 'h' || h == 'H') && '2' ≤ d && d ≤ '4' then
      let attrs := rest.takeWhile (· != '>')
      match rest.drop attrs.length with
      | '>' :: r2 =>
        match lazyCloseHeading24 r2 with
        | some (text, n) => some (d, attrs, text, 3 + attrs.length + 1 + n)
        | none => none
      | _ => none
    else none
  | _ => none

/-- All matches of the heading regex of `enhanceTOCWithH2Links`, in order:
`(match[0], level digit, attributes, text)`. -/
def collectH24Go : Nat → Str → List (Str × Char × Str × Str)
  | 0, _ => []
  | _ + 1, [] => []
  | fuel + 1, c :: rest =>
    let s := c :: rest
    match parseHeading24 s with
    | some (d, attrs, text, n) =>
      (s.take n, d, attrs, text) :: collectH24Go fuel (s.drop n)
    | none => collectH24Go fuel rest

/-- All matches of `/<h([2-4])([^>]*?)>(.*?)<\/h[2-4]>/gi` in `s`. -/
def collectH24 (s : Str) : List (Str × Char × Str × Str) :=
  collectH24Go s.length s

/-- Matcher for `replace(/<[^>]*>/g, '')` (tag stripping for display text). -/
def stripTagsMatcher (s : Str) : Option (Str × Nat) :=
  match s with
  | '<' :: rest =>
    let run := rest.takeWhile (· != '>')
    match rest.drop run.length with
    | '>' :: _ => some ([], 1 + run.length + 1)
    | _ => none
  | _ => none

/-- `headingText.replace(/<[^>]*>/g, '')`. -/
def stripTags (s : Str) : Str := scanRepl stripTagsMatcher s

/-- `attributes.match(/id\s*=\s*["']([^"']+)["']/i)`: first occurrence of an
`id` attribute; the opening and closing quote may differ, the value may not
contain either quote character. -/
def parseIdAttr : Str → Option Str
  | [] => none
  | c :: rest =>
    (if strStartsWithCI (c :: rest) ("id".data) then
      let r := (c :: rest).drop 2
      let w1 := r.takeWhile jsIsWs
      match r.drop w1.length with
      | '=' :: r2 =>
        let w2 := r2.takeWhile jsIsWs
        match r2.drop w2.length with
        | q :: r3 =>
          if q == '"' || q == squote then
            let inner := r3.takeWhile (fun x => x != '"' && x != squote)
            if inner ≠ [] then
              match r3.drop inner.length with
              | q2 :: _ => if q2 == '"' || q2 == squote then some inner else none
              | [] => none
            else none
          else none
        | [] => none
      | _ => none
    else none).orElse (fun _ => parseIdAttr rest)

/-- One iteration of the heading loop of `enhanceTOCWithH2Links`
(src/document-parser.js:830-859): threads the modified HTML and appends a
`{level, id, text}` entry.  When the heading lacks an id, the first
occurrence of the original match is rewritten with a generated id. -/
def enhanceHeadingStep (acc : Str × List (Nat × Str × Str))
    (m : Str × Char × Str × Str) : Str × List (Nat × Str × Str) :=
  let match0 := m.1
  let d := m.2.1
  let attrs := m.2.2.1
  let headingText := jsTrim m.2.2.2
  let level := d.toNat - '0'.toNat
  let cleanText := stripTags headingText
  match parseIdAttr attrs with
  | some id => (acc.1, acc.2 ++ [(level, id, cleanText)])
  | none =>
    let headingId := generateId cleanText
    let newHeading := "<h".data ++ [d] ++ " id=\"".data ++ headingId ++ "\"".data
      ++ attrs ++ ">".data ++ headingText ++ "</h".data ++ [d] ++ ">".data
    (replaceFirst match0 newHeading acc.1, acc.2 ++ [(level, headingId, cleanText)])

/-- The first match of the TOC regex of `enhanceTOCWithH2Links`
(`/<div class="blog_index_cover"[\s\S]*?<ol class="blog_index"[^>]*?>([\s\S]*?)<\/ol>[\s\S]*?<\/div>/i`).
Each lazy gap reaches to the first occurrence of the next literal; this
first-occurrence chain is equivalent to the backtracking search because a
later retry only searches a smaller suffix for the same missing literal. -/
def findTocMatch (s : Str) : Option Str :=
  let lit1 := "<div class=\"blog_index_cover\"".data
  let lit2 := "<ol class=\"blog_index\"".data
  match findSubIdxCI lit1 s with
  | some p =>
    let s1 := s.drop p
    let after1 := s1.drop lit1.length
    match findSubIdxCI lit2 after1 with
    | some q =>
      let after2 := after1.drop (q + lit2.length)
      let attrs := after2.takeWhile (· != '>')
      match after2.drop attrs.length with
      | '>' :: r2 =>
        match findSubIdxCI ("</ol>".data) r2 with
        | some u =>
          let r3 := r2.drop (u + 5)
          match findSubIdxCI ("</div>".data) r3 with
          | some v =>
            some (s1.take (lit1.length + q + lit2.length + attrs.length + 1 + u + 5 + v + 6))
          | none => none
        | none => none
      | _ => none
    | none => none
  | none => none

/-- One line of the rebuilt TOC list (`newTocItems` accumulation). -/
def newTocItem (e : Nat × Str × Str) : Str :=
  let indent := (List.replicate (e.1 - 1) ("    ".data)).flatten
  let linkClass := if e.1 = 2 then [] else " class=\"sub-heading\"".data
  indent ++ "<li><a href=\"#".data ++ e.2.1 ++ "\"".data ++ linkClass
    ++ ">".data ++ e.2.2 ++ "</a></li>\n".data

/-- `DocumentParser.enhanceTOCWithH2Links` (src/document-parser.js:822-890). -/
def enhanceTOCWithH2Links (html : Str) : Str :=
  let res := (collectH24 html).foldl enhanceHeadingStep (html, [])
  let modifiedHtml := res.1
  let allHeadings := res.2
  if allHeadings = [] then modifiedHtml
  else
    match findTocMatch modifiedHtml with
    | some tocMatch0 =>
      let newTocItems := (allHeadings.map newTocItem).flatten
      let newTocSection :=
        "<div class=\"blog_index_cover\">\n    <p class=\"blog_index_toggle_btn fonts-16 w-700\">Table Of Contents</p>\n    <ol class=\"blog_index\">\n".data
          ++ newTocItems ++ "    </ol>\n</div>".data
      replaceFirst tocMatch0 newTocSection modifiedHtml
    | none => modifiedHtml

end DP

/-!
Embedding of `DocumentParser.convertTextToHTML` (src/document-parser.js:249-502):
a single pass over the line array with the loop state below; the initial
`analyzeTextStructure` call of the source is pure and its result unused, so
it is omitted.
-/

/-- The loop state of `convertTextToHTML`: the accumulated output and the
`inList` / `currentListType` / `currentSection` / `sectionItems` / `tocItems`
variables of the source. -/
structure ConvState where
  html : Str
  inList : Bool
  currentListType : Option Str
  currentSection : Option Str
  sectionItems : List Str
  tocItems : List SectionItem
deriving DecidableEq

namespace DP

/-- Close the open list container, if any (the repeated
`if (inList) { html += closeList(currentListType); inList = false;
currentListType = null; }` fragment). -/
def closeListIf (st : ConvState) : ConvState :=
  if st.inList then
    { st with html := st.html ++ closeList st.currentListType,
              inList := false, currentListType := none }
  else st

/-- Flush of the buffered section when a new heading or tag is reached
(src/document-parser.js:333-343): `toc` leaves a placeholder, `ignore`
discards, other sections render; the buffer is cleared, the section slot is
left as is. -/
def flushSection (st : ConvState) : ConvState :=
  match st.currentSection with
  | some cs =>
    if st.sectionItems ≠ [] then
      if cs = "toc".data then
        { st with html := st.html ++ "<!-- TOC_PLACEHOLDER -->".data, sectionItems := [] }
      else if cs ≠ "ignore".data then
        let rendered := SD.processSectionContent cs [] (st.sectionItems.map SectionItem.s)
        { st with html := st.html ++ rendered, sectionItems := [] }
      else { st with sectionItems := [] }
    else st
  | none => st

/-- Flush on an explicit end tag (src/document-parser.js:319-327): like
`flushSection` but with no `toc` placeholder special case. -/
def flushSectionEnd (st : ConvState) : ConvState :=
  match st.currentSection with
  | some cs =>
    if st.sectionItems ≠ [] then
      if cs ≠ "ignore".data then
        let rendered := SD.processSectionContent cs [] (st.sectionItems.map SectionItem.s)
        { st with html := st.html ++ rendered, sectionItems := [] }
      else { st with sectionItems := [] }
    else st
  | none => st

/-- `<h${level} id="${id}">${text}</h${level}>\n`. -/
def headingHtml (level : Nat) (id text : Str) : Str :=
  "<h".data ++ natToStr level ++ " id=\"".data ++ id ++ "\">".data ++ text
    ++ "</h".data ++ natToStr level ++ ">\n".data

/-- Emit a heading into the body and record it for the deferred TOC. -/
def headingEmitPush (level : Nat) (id text : Str) (st : ConvState) : ConvState :=
  { st with html := st.html ++ headingHtml level id text,
            tocItems := st.tocItems ++ [SectionItem.obj text id level] }

/-- The `else if` chain of the regular-heading processing
(src/document-parser.js:381-399), evaluated on the untouched
`currentSection`. -/
def headingFallback (level : Nat) (text id : Str) (st2 : ConvState) : ConvState :=
  match st2.currentSection with
  | none => headingEmitPush level id text st2
  | some cs =>
    if cs ≠ "ignore".data ∧ cs ≠ "faq".data ∧ cs ≠ "toc".data then
      headingEmitPush level id text st2
    else if cs = "faq".data then { st2 with sectionItems := st2.sectionItems ++ [text] }
    else if cs = "toc".data then { st2 with sectionItems := st2.sectionItems ++ [text] }
    else st2

/-- Regular heading processing (src/document-parser.js:362-400): level, text
and id extraction, trigger-phrase detection on the cleaned text, and the
emission chain. -/
def headingProcess (line normalizedLine : Str) (st2 : ConvState) : ConvState :=
  if isHeading line then
    let level := getHeadingLevel line
    let text := cleanHeadingText line
    let id := generateId text
    match SD.detectSectionType text with
    | some stype =>
      if !(SD.isStartTag normalizedLine) then
        let stN := { st2 with currentSection := some stype }
        if stype ≠ "toc".data ∧ stype ≠ "faq".data then
          headingEmitPush level id text stN
        else stN
      else headingFallback level text id st2
    | none => headingFallback level text id st2
  else st2

/-- One iteration of the `convertTextToHTML` loop at index `i`; returns the
new state and the next index (the source's `i++` plus any skips). -/
def stepAt (lines : List Str) (i : Nat) (st : ConvState) : ConvState × Nat :=
  let line := jsTrim (lines.getD i [])
  if line = [] then (closeListIf st, i + 1)
  else if containsSub line ("<TABLE>".data) then
    -- table block from Google Docs: gather lines up to the <TABLE END> line
    let body := (lines.drop (i + 1)).takeWhile (fun l => !containsSub l ("<TABLE END>".data))
    let j := i + 1 + body.length
    let tableContent := (body.map jsTrim).filter
      (fun t => !t.isEmpty && !strStartsWith t ("<".data) && !strEndsWith t (">".data))
    let st' :=
      if tableContent ≠ [] then
        let stL := closeListIf st
        { stL with html := stL.html ++ SD.processTableItems tableContent ++ "\n".data }
      else st
    (st', j + 1)
  else if containsSub line ("<TABLE END>".data) || containsSub line ("TABLE END".data) then
    (st, i + 1)
  else if isHeading line || SD.isStartTag (jsToUpper line) || SD.isEndTag (jsToUpper line) then
    let normalizedLine := jsTrim (jsToUpper line)
    if SD.isEndTag normalizedLine then
      ({ flushSectionEnd st with currentSection := none }, i + 1)
    else
      let st2 := closeListIf (flushSection st)
      if SD.isStartTag normalizedLine then
        match SD.getSectionTypeFromTag normalizedLine with
        | some sectionType => ({ st2 with currentSection := some sectionType }, i + 1)
        | none => (headingProcess line normalizedLine st2, i + 1)
      else (headingProcess line normalizedLine st2, i + 1)
  else if isTableRow line then
    match st.currentSection with
    | some _ => ({ st with sectionItems := st.sectionItems ++ [line] }, i + 1)
    | none =>
      let st2 := closeListIf st
      let tableRows := collectTableRows (lines.drop i)
      if 1 < tableRows.length then
        ({ st2 with html := st2.html ++ SD.processTableItems tableRows },
          i + tableRows.length)
      else
        ({ st2 with html := st2.html ++ "<p>".data ++ line ++ "</p>\n".data }, i + 1)
  else if isListItem line then
    let itemText := cleanListItem line
    match st.currentSection with
    | some _ => ({ st with sectionItems := st.sectionItems ++ [itemText] }, i + 1)
    | none =>
      let listType := getListType line
      let st2 :=
        if !st.inList || st.currentListType ≠ some listType then
          let stc :=
            if st.inList then { st with html := st.html ++ closeList st.currentListType }
            else st
          { stc with html := stc.html ++ openList listType,
                     inList := true, currentListType := some listType }
        else st
      ({ st2 with html := st2.html ++ "  <li>".data ++ itemText ++ "</li>\n".data }, i + 1)
  else
    match st.currentSection with
    | some _ => ({ st with sectionItems := st.sectionItems ++ [line] }, i + 1)
    | none =>
      let st2 := closeListIf st
      ({ st2 with html := st2.html ++ "<p>".data ++ formatRichText line ++ "</p>\n".data },
        i + 1)

/-- Fueled driver of the loop; every iteration advances the index by at
least one, so `lines.length + 1` fuel always completes the scan. -/
def convGo (lines : List Str) : Nat → Nat → ConvState → ConvState
  | 0, _, st => st
  | fuel + 1, i, st =>
    if lines.length ≤ i then st
    else
      let p := stepAt lines i st
      convGo lines fuel p.2 p.1

/-- The initial loop state. -/
def initState : ConvState :=
  { html := [], inList := false, currentListType := none,
    currentSection := none, sectionItems := [], tocItems := [] }

/-- `DocumentParser.convertTextToHTML` (src/document-parser.js:249-502):
the scan, the final section flush, the list closing, the TOC placeholder
substitution, the TOC enhancement pass, and the cleanup. -/
def convertTextToHTML (content : Str) : Str :=
  let lines := splitAllOn '\n' content
  let fin := convGo lines (lines.length + 1) 0 initState
  let fin2 := flushSection fin
  let h1 := fin2.html
  let h2 := if fin2.inList then h1 ++ closeList fin2.currentListType else h1
  let h3 :=
    if containsSub h2 ("<!-- TOC_PLACEHOLDER -->".data) && fin2.tocItems ≠ [] then
      replaceFirst ("<!-- TOC_PLACEHOLDER -->".data)
        (SD.processSectionContent ("toc".data) [] fin2.tocItems) h2
    else h2
  let h4 := if containsSub h3 ("blog_index_cover".data) then enhanceTOCWithH2Links h3 else h3
  cleanupHTML h4

end DP

/-!
Specification-side definitions used by the theorems below: a first-colon
split description of the steps renderer, the question/answer grouping of the
FAQ renderer, and a no-adjacent-whitespace predicate for the cleanup
idempotence argument.
-/

namespace DP

/-- Description of one steps list item by a split at the **first** colon:
the title is the text before it (auto-numbered when empty), the description
the trimmed text after it (the whole line when that is empty or when there
is no colon). -/
def stepsLiSpec (idx : Nat) (item : Str) : Str :=
  let before := item.takeWhile (· != ':')
  let afterT := jsTrim ((item.dropWhile (· != ':')).drop 1)
  let title := if before = [] then "Step ".data ++ natToStr (idx + 1) else before
  let description := if afterT = [] then item else afterT
  "    <li>\n        <h3>".data ++ title ++ "</h3>\n        <p>".data
    ++ description ++ "</p>\n    </li>".data

end DP

namespace SD

/-- The question test of the FAQ loop: ends in `?`, or starts with an
interrogative word and is longer than 10 characters. -/
def isQuestionLine (item : Str) : Bool :=
  strEndsWith item ['?'] || isLikelyQuestion item

/-- Shape check for FAQ buffers, as a small automaton: mode 0 expects a
question (or the end), mode 1 demands at least one answer after a question,
mode 2 accepts answers and new questions. -/
def faqWFGo : Nat → List Str → Bool
  | 1, [] => false
  | _, [] => true
  | 0, x :: rest => isQuestionLine x && faqWFGo 1 rest
  | 1, x :: rest => !isQuestionLine x && faqWFGo 2 rest
  | _ + 2, x :: rest =>
    if isQuestionLine x then faqWFGo 1 rest else faqWFGo 2 rest

/-- Well-formed FAQ buffer: every line trimmed and non-empty, the first line
a question, and every question followed by at least one answer. -/
def faqWF (items : List Str) : Bool :=
  items.all (fun it => jsTrim it == it && !it.isEmpty) && faqWFGo 0 items

/-- Question/answer grouping of a buffer whose first line is a question:
each question takes all following non-question lines as its answers, up to
the next question. -/
def faqGroups : List Str → List (Str × List Str)
  | [] => []
  | q :: rest =>
    (q, rest.takeWhile (fun it => !isQuestionLine it))
      :: faqGroups (rest.dropWhile (fun it => !isQuestionLine it))
termination_by items => items.length
decreasing_by
  exact Nat.lt_succ_of_le (List.IsSuffix.length_le (List.dropWhile_suffix _))

end SD

/-- No two adjacent whitespace characters. -/
def noWs2 : Str → Bool
  | a :: b :: r => !(jsIsWs a && jsIsWs b) && noWs2 (b :: r)
  | _ => true

/-!
Supporting lemmas and the claim theorems.
-/

/-- Characters emitted by the `\s+` → `-` replacement worker: a hyphen, or a
non-whitespace character of the input. -/
theorem mem_wsRunsToHyphenGo : ∀ (b : Bool) (t : Str), ∀ c ∈ DP.wsRunsToHyphenGo b t,
    (c ∈ t ∧ jsIsWs c = false) ∨ c = '-' := by
  intro b t
  induction t generalizing b with
  | nil => intro c hc; simp [DP.wsRunsToHyphenGo] at hc
  | cons x rest ih =>
    intro c hc
    by_cases hx : jsIsWs x
    · simp only [DP.wsRunsToHyphenGo, hx, if_true] at hc
      rcases List.mem_append.mp hc with h1 | h2
      · right
        rcases b with _ | _ <;> simp_all
      · rcases ih true c h2 with ⟨h3, h4⟩ | h5
        · exact Or.inl ⟨List.mem_cons_of_mem _ h3, h4⟩
        · exact Or.inr h5
    · simp only [DP.wsRunsToHyphenGo, hx, if_false] at hc
      rcases List.mem_cons.mp hc with rfl | h2
      · exact Or.inl ⟨List.mem_cons_self _ _, by simp [hx]⟩
      · rcases ih false c h2 with ⟨h3, h4⟩ | h5
        · exact Or.inl ⟨List.mem_cons_of_mem _ h3, h4⟩
        · exact Or.inr h5

/-- C10: the three client-side id generators (`DocumentParser.generateId`,
`SectionDetector.generateId`, `TemplateSystem.generateId`) compute the same
function, so ids assigned to headings, FAQ questions, and TOC links are
mutually consistent. -/
theorem generateId_three_way_agreement :
    ∀ s : Str, DP.generateId s = SD.generateId s ∧ SD.generateId s = TS.generateId s :=
  fun _ => ⟨rfl, rfl⟩

/-- C4 (counterexample): `generateId` can end in a hyphen — on `"a !"` the
bang is stripped, leaving a trailing space that the whitespace pass turns
into a trailing `-`; so the claimed "no leading or trailing hyphen" is
false. -/
theorem generateId_trailing_hyphen_counterexample :
    DP.generateId ("a !".data) = "a-".data ∧
    (DP.generateId ("a !".data)).getLast? = some '-' := by
  constructor <;> decide

/-- C4 (amended): `generateId` is deterministic (it is a pure function of
its input), produces only characters in `[a-z0-9-]`, and yields at most 50
characters; a leading or trailing hyphen can occur when the input starts or
ends with whitespace or hyphens. -/
theorem generateId_charset_and_length :
    ∀ s : Str,
      (∀ c ∈ DP.generateId s, ('a' ≤ c ∧ c ≤ 'z') ∨ ('0' ≤ c ∧ c ≤ '9') ∨ c = '-')
      ∧ (DP.generateId s).length ≤ 50 := by
  intro s
  constructor
  · intro c hc
    have hc' : c ∈ DP.wsRunsToHyphen ((jsToLower s).filter DP.genKeep) :=
      List.mem_of_mem_take hc
    rcases mem_wsRunsToHyphenGo false _ c hc' with ⟨hmem, hnws⟩ | rfl
    · have hk : DP.genKeep c = true := (List.mem_filter.mp hmem).2
      simp only [DP.genKeep, isLowerCh, isDigitCh, Bool.or_eq_true, decide_eq_true_eq,
        Bool.and_eq_true, beq_iff_eq] at hk
      rcases hk with ((⟨h1, h2⟩ | ⟨h1, h2⟩) | h) | h
      · exact Or.inl ⟨h1, h2⟩
      · exact Or.inr (Or.inl ⟨h1, h2⟩)
      · rw [h] at hnws; simp at hnws
      · exact Or.inr (Or.inr h)
    · exact Or.inr (Or.inr rfl)
  · have : (DP.generateId s).length ≤ 50 := by
      simp [DP.generateId, List.length_take]
    exact this

/-- C1 (code_bug): the client-side `DocumentParser.getHeadingLevel` indeed
only assigns levels 2–4, but the server-side rule-based fallback of
src/unnamed/part_001 classifies `INTRODUCTION` as a heading and assigns it
level 1, so that path emits an `<h1>` element — contradicting the project's
own rule "Never use `<h1>` tags (convert to `<h2>`)". -/
theorem heading_level_one_in_server_fallback :
    (∀ line : Str, 2 ≤ DP.getHeadingLevel line ∧ DP.getHeadingLevel line ≤ 4)
    ∧ Srv.isHeading ("INTRODUCTION".data) = true
    ∧ Srv.getHeadingLevel ("INTRODUCTION".data) = 1 := by
  refine ⟨fun line => ?_, by decide, by decide⟩
  unfold DP.getHeadingLevel
  dsimp only
  (repeat' split) <;> omega

/-- C7: a line whose normalized text is not a bracket tag, differs from every
trigger phrase (also with a trailing `:` or `.`), and is longer than every
trigger phrase by more than the 5-character margin is never classified as a
section trigger — `detectSectionType` returns `none`. -/
theorem long_prose_is_not_a_trigger :
    ∀ text : Str,
      SD.isStartTag (jsTrim (jsToUpper text)) = false →
      (∀ kv ∈ SD.sectionMappings,
        jsTrim (jsToUpper text) ≠ kv.1 ∧ jsTrim (jsToUpper text) ≠ kv.1 ++ [':']
          ∧ jsTrim (jsToUpper text) ≠ kv.1 ++ ['.']) →
      (∀ kv ∈ SD.sectionMappings, kv.1.length + 5 < (jsTrim (jsToUpper text)).length) →
      SD.detectSectionType text = none := by
  intro text h1 h2 h3
  unfold SD.detectSectionType
  dsimp only
  rw [if_neg (by simp [h1])]
  have hl : SD.lookupMapping (jsTrim (jsToUpper text)) = none := by
    unfold SD.lookupMapping
    rw [List.find?_eq_none.mpr]
    · rfl
    · intro kv hkv
      simp only [beq_iff_eq]
      exact fun he => (h2 kv hkv).1 he.symm
  rw [hl]
  rw [List.find?_eq_none.mpr]
  · rfl
  · intro kv hkv
    obtain ⟨e1, e2, e3⟩ := h2 kv hkv
    have l1 := h3 kv hkv
    simp only [Bool.or_eq_true, Bool.and_eq_true, beq_iff_eq, decide_eq_true_eq, not_or]
    refine ⟨⟨⟨e1, e2⟩, e3⟩, fun h => ?_⟩
    exact absurd h.1 (by omega)

/-- C7 (witness): a long prose sentence that merely contains the substring
`FAQ` satisfies the hypotheses and is classified as prose. -/
theorem long_prose_is_not_a_trigger_witness :
    (SD.isStartTag (jsTrim (jsToUpper ("This long sentence merely contains the substring FAQ somewhere in running prose".data))) = false)
    ∧ SD.detectSectionType ("This long sentence merely contains the substring FAQ somewhere in running prose".data) = none :=
  ⟨by decide,
   long_prose_is_not_a_trigger _ (by decide)
     (by decide) (by decide)⟩

/-- C9: for a section tag outside the template table, `processSectionContent`
totally evaluates (never throws) and returns the default paragraph wrapping
of its content argument. -/
theorem unknown_tag_falls_back_to_paragraph :
    ∀ (tag content : Str) (items : List SectionItem),
      tag ∉ SD.templateKeys →
      SD.processSectionContent tag content items = "<p>".data ++ content ++ "</p>".data := by
  intro tag content items hmem
  have h : ∀ k ∈ SD.templateKeys, (tag == k) = false := by
    intro k hk
    exact beq_eq_false_iff_ne.mpr (fun he => hmem (he ▸ hk))
  unfold SD.processSectionContent
  rw [if_neg (by simp [h _ (show ("toc".data : Str) ∈ SD.templateKeys by decide)]),
    if_neg (by simp [h _ (show ("key-takeaways".data : Str) ∈ SD.templateKeys by decide)]),
    if_neg (by simp [h _ (show ("cta".data : Str) ∈ SD.templateKeys by decide)]),
    if_neg (by simp [h _ (show ("cta1".data : Str) ∈ SD.templateKeys by decide)]),
    if_neg (by simp [h _ (show ("cta2".data : Str) ∈ SD.templateKeys by decide)]),
    if_neg (by simp [h _ (show ("faq".data : Str) ∈ SD.templateKeys by decide)]),
    if_neg (by simp [h _ (show ("steps".data : Str) ∈ SD.templateKeys by decide)]),
    if_neg (by simp [h _ (show ("pros-cons".data : Str) ∈ SD.templateKeys by decide)]),
    if_neg (by simp [h _ (show ("bullet-list".data : Str) ∈ SD.templateKeys by decide)]),
    if_neg (by simp [h _ (show ("comparison".data : Str) ∈ SD.templateKeys by decide)]),
    if_neg (by simp [h _ (show ("ignore".data : Str) ∈ SD.templateKeys by decide)]),
    if_neg (by simp [h _ (show ("table".data : Str) ∈ SD.templateKeys by decide)])]
  rfl

/-- C9 (witness): the unknown tag `mystery` returns the paragraph wrapping. -/
theorem unknown_tag_falls_back_to_paragraph_witness :
    ("mystery".data ∉ SD.templateKeys)
    ∧ SD.processSectionContent ("mystery".data) ("hello".data) []
        = "<p>hello</p>".data :=
  ⟨by decide, unknown_tag_falls_back_to_paragraph _ _ [] (by decide)⟩

/-- `splitAllOn` never returns the empty list. -/
theorem splitAllOn_ne_nil (sep : Char) (s : Str) : splitAllOn sep s ≠ [] := by
  induction s with
  | nil => simp [splitAllOn]
  | cons c rest ih =>
    by_cases hc : (c == sep) = true
    · simp [splitAllOn, hc]
    · simp only [splitAllOn, hc, Bool.false_eq_true, if_false]
      rcases hsp : splitAllOn sep rest with _ | ⟨p, ps⟩
      · exact absurd hsp ih
      · simp

/-- Splitting and rejoining on the same separator is the identity. -/
theorem joinWith_splitAllOn (sep : Char) (s : Str) :
    joinWith [sep] (splitAllOn sep s) = s := by
  induction s with
  | nil => rfl
  | cons c rest ih =>
    by_cases hc : (c == sep) = true
    · have hc' : c = sep := by simpa using hc
      simp only [splitAllOn, hc, if_true]
      rcases hsp : splitAllOn sep rest with _ | ⟨p, ps⟩
      · exact absurd hsp (splitAllOn_ne_nil sep rest)
      · rw [hsp] at ih
        subst hc'
        simpa [joinWith] using ih
    · simp only [splitAllOn, hc, Bool.false_eq_true, if_false]
      rcases hsp : splitAllOn sep rest with _ | ⟨p, ps⟩
      · exact absurd hsp (splitAllOn_ne_nil sep rest)
      · rw [hsp] at ih
        rcases ps with _ | ⟨p2, ps2⟩
        · simpa [joinWith] using ih
        · simp only [joinWith] at ih ⊢
          simp [← ih]

/-- The first piece of `splitAllOn` is the text before the first separator. -/
theorem splitAllOn_head (sep : Char) (s : Str) :
    ∃ ps, splitAllOn sep s = s.takeWhile (· != sep) :: ps := by
  induction s with
  | nil => exact ⟨[], rfl⟩
  | cons c rest ih =>
    by_cases hc : (c == sep) = true
    · have hc' : c = sep := by simpa using hc
      refine ⟨splitAllOn sep rest, ?_⟩
      simp [splitAllOn, hc, List.takeWhile, hc']
    · obtain ⟨ps, hps⟩ := ih
      rcases hsp : splitAllOn sep rest with _ | ⟨p, ps'⟩
      · exact absurd hsp (splitAllOn_ne_nil sep rest)
      · rw [hsp] at hps
        refine ⟨ps', ?_⟩
        have hcne : (c != sep) = true := by simpa using hc
        simp only [splitAllOn, hc, Bool.false_eq_true, if_false, hsp, List.takeWhile, hcne]
        injection hps with h1 h2
        rw [h1]

/-- Rejoining the pieces after the first is the text after the first
separator. -/
theorem joinWith_splitAllOn_drop_one (sep : Char) (s : Str) :
    joinWith [sep] ((splitAllOn sep s).drop 1) = (s.dropWhile (· != sep)).drop 1 := by
  induction s with
  | nil => rfl
  | cons c rest ih =>
    by_cases hc : (c == sep) = true
    · have hc' : c = sep := by simpa using hc
      simp only [splitAllOn, hc, if_true, List.drop_succ_cons, List.drop_zero]
      rw [joinWith_splitAllOn]
      simp [List.dropWhile, hc']
    · have hcne : (c != sep) = true := by simpa using hc
      rcases hsp : splitAllOn sep rest with _ | ⟨p, ps⟩
      · exact absurd hsp (splitAllOn_ne_nil sep rest)
      · rw [hsp] at ih
        simp only [splitAllOn, hc, Bool.false_eq_true, if_false, hsp, List.drop_succ_cons,
          List.drop_zero, List.dropWhile, hcne] at ih ⊢
        exact ih

/-- Each steps list item equals its first-colon-split description. -/
theorem stepsLi_eq_spec (i : Nat) (item : Str) :
    SD.stepsLi i item = DP.stepsLiSpec i item := by
  unfold SD.stepsLi DP.stepsLiSpec
  obtain ⟨ps, hps⟩ := splitAllOn_head ':' item
  have hdrop : (splitAllOn ':' item).drop 1 = ps := by rw [hps]; rfl
  have hjoin := joinWith_splitAllOn_drop_one ':' item
  rw [hdrop] at hjoin
  rw [hps]
  dsimp only
  simp only [List.drop_succ_cons, List.drop_zero]
  rw [hjoin]

/-- Indexed mapping of the steps items agrees with the specification form. -/
theorem stepsLi_enumFrom_spec : ∀ (n : Nat) (l : List Str),
    ((l.map SectionItem.s).enumFrom n).map (fun p => SD.stepsLi p.1 p.2.toStr)
      = (l.enumFrom n).map (fun p => DP.stepsLiSpec p.1 p.2) := by
  intro n l
  induction l generalizing n with
  | nil => rfl
  | cons x xs ih =>
    simp only [List.map_cons, List.enumFrom, List.map_cons]
    exact congrArg₂ _ (stepsLi_eq_spec n x) (ih (n + 1))

/-- C5 (counterexample): a buffered line with no colon does not get an
auto-numbered title — the whole line becomes both the title and the
description, and no `Step 1` text appears. -/
theorem steps_no_colon_counterexample :
    SD.processSectionContent ("steps".data) [] [SectionItem.s ("hello".data)]
      = "\n<ol class=\"listing-bx\">\n    <li>\n        <h3>hello</h3>\n        <p>hello</p>\n    </li>\n</ol>".data
    ∧ containsSub (SD.processSectionContent ("steps".data) [] [SectionItem.s ("hello".data)])
        ("Step 1".data) = false := by
  constructor <;> decide

/-- C5 (amended): the steps renderer emits exactly one ordered-list item per
buffered line, splitting each line at its first `:` — the title is the text
before the colon, falling back to an auto-numbered `Step n` only when that
text is empty, and the description is the trimmed text after the colon,
falling back to the whole line when that is empty (in particular when the
line has no colon, the whole line is both title and description). -/
theorem steps_renderer_first_colon_split :
    ∀ items : List Str,
      SD.processSectionContent ("steps".data) [] (items.map SectionItem.s)
        = "\n<ol class=\"listing-bx\">\n".data
          ++ joinWith ("\n".data) (items.enum.map (fun p => DP.stepsLiSpec p.1 p.2))
          ++ "\n</ol>".data := by
  intro items
  have hd : SD.processSectionContent ("steps".data) [] (items.map SectionItem.s)
      = SD.tplSteps (items.map SectionItem.s) := by
    unfold SD.processSectionContent
    rw [if_neg (by decide), if_neg (by decide), if_neg (by decide), if_neg (by decide),
      if_neg (by decide), if_neg (by decide), if_pos (by decide)]
  rw [hd]
  unfold SD.tplSteps
  rw [show (items.map SectionItem.s).enum = (items.map SectionItem.s).enumFrom 0 from rfl,
    stepsLi_enumFrom_spec]
  rfl

/-- Invariant of the FAQ loop: with a pending question `q` and accumulated
answers `as`, on a buffer of trimmed non-empty lines that continues with an
answer when `as` is empty, the loop renders the pending group (extended by
the following answers) and then the remaining groups, separated by blank
lines. -/
theorem processFAQGo_spec :
    ∀ (items : List Str) (q : Str) (ans : List Str),
      (∀ it ∈ items, jsTrim it = it ∧ it ≠ []) →
      q ≠ [] →
      ((ans = [] ∧ SD.faqWFGo 1 items = true) ∨ (ans ≠ [] ∧ SD.faqWFGo 2 items = true)) →
      SD.processFAQGo q ans items
        = joinWith ("\n".data)
            (((q, ans ++ items.takeWhile (fun it => !SD.isQuestionLine it))
              :: SD.faqGroups (items.dropWhile (fun it => !SD.isQuestionLine it))).map
              (fun g => SD.renderQA g.1 g.2)) := by
  intro items
  induction items with
  | nil =>
    intro q ans _ hq hmode
    rcases hmode with ⟨_, hwf⟩ | ⟨hans, _⟩
    · simp [SD.faqWFGo] at hwf
    · simp only [SD.processFAQGo, List.takeWhile_nil, List.dropWhile_nil, List.append_nil]
      rw [if_pos ⟨hq, hans⟩]
      simp [SD.faqGroups, joinWith]
  | cons x rest ih =>
    intro q ans hitems hq hmode
    obtain ⟨hxt, hxne⟩ := hitems x (List.mem_cons_self _ _)
    have hrest : ∀ it ∈ rest, jsTrim it = it ∧ it ≠ [] :=
      fun it hit => hitems it (List.mem_cons_of_mem _ hit)
    by_cases hqx : SD.isQuestionLine x = true
    · -- a new question: the pending group must flush
      have hans : ans ≠ [] := by
        rcases hmode with ⟨_, hwf⟩ | ⟨hans, _⟩
        · simp [SD.faqWFGo, hqx] at hwf
        · exact hans
      have hwf1 : SD.faqWFGo 1 rest = true := by
        rcases hmode with ⟨_, hwf⟩ | ⟨_, hwf⟩
        · simp [SD.faqWFGo, hqx] at hwf
        · simpa [SD.faqWFGo, hqx] using hwf
      simp only [SD.processFAQGo, hxt]
      rw [if_neg (by simp [hxne]),
        if_pos (show (strEndsWith x ['?'] || SD.isLikelyQuestion x) = true from hqx),
        if_pos ⟨hq, hans⟩]
      rw [ih x [] hrest hxne (Or.inl ⟨rfl, hwf1⟩)]
      have htw : (x :: rest).takeWhile (fun it => !SD.isQuestionLine it) = [] := by
        simp [List.takeWhile, hqx]
      have hdw : (x :: rest).dropWhile (fun it => !SD.isQuestionLine it) = x :: rest := by
        simp [List.dropWhile, hqx]
      rw [htw, hdw, List.append_nil]
      rw [show SD.faqGroups (x :: rest)
          = (x, rest.takeWhile (fun it => !SD.isQuestionLine it))
            :: SD.faqGroups (rest.dropWhile (fun it => !SD.isQuestionLine it)) from by
        rw [SD.faqGroups]]
      simp [joinWith, List.append_assoc]
    · -- an answer line: it accumulates on the pending question
      have hwf2 : SD.faqWFGo 2 rest = true := by
        rcases hmode with ⟨_, hwf⟩ | ⟨_, hwf⟩
        · simpa [SD.faqWFGo, hqx] using hwf
        · simpa [SD.faqWFGo, hqx] using hwf
      simp only [SD.processFAQGo, hxt]
      rw [if_neg (by simp [hxne]),
        if_neg (show ¬(strEndsWith x ['?'] || SD.isLikelyQuestion x) = true from by
          simpa [SD.isQuestionLine] using hqx),
        if_pos hq]
      rw [ih q (ans ++ [x]) hrest hq (Or.inr ⟨by simp, hwf2⟩)]
      have htw : (x :: rest).takeWhile (fun it => !SD.isQuestionLine it)
          = x :: rest.takeWhile (fun it => !SD.isQuestionLine it) := by
        simp [List.takeWhile, hqx]
      have hdw : (x :: rest).dropWhile (fun it => !SD.isQuestionLine it)
          = rest.dropWhile (fun it => !SD.isQuestionLine it) := by
        simp [List.dropWhile, hqx]
      rw [htw, hdw]
      simp [List.append_assoc]

set_option maxRecDepth 4000 in
/-- C6: the FAQ renderer pairs buffered lines into question/answer groups —
on the four-line buffer `What is X? / X is Y. / Why use X? / Because Z.` it
produces exactly two `<h3>` questions each followed by one `<p>` answer, in
order; and in general, on a well-formed buffer (trimmed non-empty lines,
first line a question, every question followed by at least one answer,
questions being lines ending in `?` or starting with an interrogative word
at length over 10) the output is exactly the rendering of the groups in
which each question takes all following non-question lines up to the next
question. -/
theorem faq_pairing :
    (SD.processSectionContent ("faq".data) []
        [SectionItem.s ("What is X?".data), SectionItem.s ("X is Y.".data),
         SectionItem.s ("Why use X?".data), SectionItem.s ("Because Z.".data)]
      = ("\n<div class=\"faq_blog\">\n    <h2 id=\"frequently-asked-questions\">Frequently Asked Questions</h2>\n    <h3 id=\"what-is-x\">What is X?</h3>\n    <p>X is Y.</p>\n\n    <h3 id=\"why-use-x\">Why use X?</h3>\n    <p>Because Z.</p>\n\n</div>").data)
    ∧ ∀ items : List Str, SD.faqWF items = true →
        SD.processFAQItems items
          = joinWith ("\n".data)
              ((SD.faqGroups items).map (fun g => SD.renderQA g.1 g.2)) := by
  constructor
  · decide
  · intro items hwf
    have hall : ∀ it ∈ items, jsTrim it = it ∧ it ≠ [] := by
      intro it hit
      have := (List.all_eq_true.mp (Bool.and_elim_left hwf)) it hit
      simp only [Bool.and_eq_true, beq_iff_eq] at this
      exact ⟨this.1, by simpa using this.2⟩
    have hgo : SD.faqWFGo 0 items = true := Bool.and_elim_right hwf
    cases items with
    | nil => simp [SD.processFAQItems, SD.processFAQGo, SD.faqGroups, joinWith]
    | cons q rest =>
      obtain ⟨hqt, hqne⟩ := hall q (List.mem_cons_self _ _)
      have hrest : ∀ it ∈ rest, jsTrim it = it ∧ it ≠ [] :=
        fun it hit => hall it (List.mem_cons_of_mem _ hit)
      have hQq : SD.isQuestionLine q = true := by
        simp only [SD.faqWFGo, Bool.and_eq_true] at hgo
        exact hgo.1
      have hwf1 : SD.faqWFGo 1 rest = true := by
        simp only [SD.faqWFGo, Bool.and_eq_true] at hgo
        exact hgo.2
      unfold SD.processFAQItems
      simp only [SD.processFAQGo, hqt]
      rw [if_neg (by simp [hqne]),
        if_pos (show (strEndsWith q ['?'] || SD.isLikelyQuestion q) = true from hQq),
        if_neg (show ¬(([] : Str) ≠ [] ∧ ([] : List Str) ≠ []) from by simp)]
      rw [processFAQGo_spec rest q [] hrest hqne (Or.inl ⟨rfl, hwf1⟩)]
      rw [show SD.faqGroups (q :: rest)
          = (q, rest.takeWhile (fun it => !SD.isQuestionLine it))
            :: SD.faqGroups (rest.dropWhile (fun it => !SD.isQuestionLine it)) from by
        rw [SD.faqGroups]]
      simp

/-- C6 (witness): the four-line buffer is well-formed and the general
grouping theorem applies to it. -/
theorem faq_pairing_witness :
    SD.faqWF ["What is X?".data, "X is Y.".data, "Why use X?".data, "Because Z.".data] = true
    ∧ SD.processFAQItems
        ["What is X?".data, "X is Y.".data, "Why use X?".data, "Because Z.".data]
      = joinWith ("\n".data)
          ((SD.faqGroups ["What is X?".data, "X is Y.".data, "Why use X?".data,
              "Because Z.".data]).map (fun g => SD.renderQA g.1 g.2)) :=
  ⟨by decide, faq_pairing.2 _ (by decide)⟩

/-- Characters with different code points are unequal under `==`. -/
theorem beq_char_false {d e : Char} (h : d.toNat ≠ e.toNat) : (d == e) = false := by
  apply beq_eq_false_iff_ne.mpr
  intro he
  exact h (he ▸ rfl)

/-- A character whose code point is none of the six whitespace codes is not
whitespace. -/
theorem jsIsWs_false_of_toNat {d : Char}
    (h : d.toNat ≠ 32 ∧ d.toNat ≠ 9 ∧ d.toNat ≠ 10 ∧ d.toNat ≠ 11 ∧ d.toNat ≠ 12 ∧ d.toNat ≠ 13) :
    jsIsWs d = false := by
  obtain ⟨h1, h2, h3, h4, h5, h6⟩ := h
  unfold jsIsWs
  rw [beq_char_false (show d.toNat ≠ (' ' : Char).toNat from h1),
    beq_char_false (show d.toNat ≠ ('\t' : Char).toNat from h2),
    beq_char_false (show d.toNat ≠ ('\n' : Char).toNat from h3),
    beq_char_false (show d.toNat ≠ (Char.ofNat 11).toNat from by
      rw [show (Char.ofNat 11).toNat = 11 from by decide]; exact h4),
    beq_char_false (show d.toNat ≠ (Char.ofNat 12).toNat from by
      rw [show (Char.ofNat 12).toNat = 12 from by decide]; exact h5),
    beq_char_false (show d.toNat ≠ ('\r' : Char).toNat from h6)]
  rfl

/-- `toUpper` does not change whether a character is whitespace. -/
theorem jsIsWs_toUpper (c : Char) : jsIsWs c.toUpper = jsIsWs c := by
  simp only [Char.toUpper]
  split
  · rename_i hn
    simp only [ge_iff_le, decide_eq_true_eq] at hn
    have hn' : 97 ≤ c.toNat ∧ c.toNat ≤ 122 := by
      constructor <;> omega
    have hv : ((c.toNat - 32) : Nat).isValidChar := by
      constructor
      omega
    have h2 : (Char.ofNat (c.toNat - 32)).toNat = c.toNat - 32 := by
      rw [Char.ofNat, dif_pos hv]
      simp [Char.ofNatAux, Char.toNat, UInt32.toNat, BitVec.toNat_ofNatLt]
    rw [jsIsWs_false_of_toNat (by rw [h2]; omega),
      jsIsWs_false_of_toNat (by omega)]
  · rfl

/-- Upper-casing commutes with trimming. -/
theorem jsTrim_jsToUpper (s : Str) : jsTrim (jsToUpper s) = jsToUpper (jsTrim s) := by
  unfold jsTrim jsToUpper
  have hws : (fun c => jsIsWs c) ∘ Char.toUpper = fun c => jsIsWs c := by
    funext c
    exact jsIsWs_toUpper c
  rw [List.dropWhile_map]
  unfold List.rdropWhile
  rw [← List.map_reverse, List.dropWhile_map, ← List.map_reverse]
  congr 2
  rw [show ((fun c => jsIsWs c) ∘ Char.toUpper) = jsIsWs from hws]

/-- Trimming is idempotent. -/
theorem jsTrim_idem (s : Str) : jsTrim (jsTrim s) = jsTrim s := by
  unfold jsTrim
  have h2 : (List.rdropWhile jsIsWs (s.dropWhile jsIsWs)).dropWhile jsIsWs
      = List.rdropWhile jsIsWs (s.dropWhile jsIsWs) := by
    rcases he : List.rdropWhile jsIsWs (s.dropWhile jsIsWs) with _ | ⟨c, cs⟩
    · simp
    · have hpre : List.rdropWhile jsIsWs (s.dropWhile jsIsWs) <+: s.dropWhile jsIsWs :=
        List.rdropWhile_prefix _ _
      rw [he] at hpre
      have hne : (c :: cs : Str) ≠ [] := by simp
      have hh := hpre.head hne
      have hcw : jsIsWs c = false := by
        have := List.head_dropWhile_not jsIsWs s (hpre.ne_nil hne)
        rw [← hh] at this
        simpa using this
      rw [List.dropWhile_cons, hcw]
      simp
  rw [h2, List.rdropWhile_idempotent]

/-- Field effects of the section flush: the slot keeps its section, the
buffer empties, list state is untouched, and when the buffer was non-empty
and the section is neither `toc` nor `ignore` the rendered section is
appended to the output. -/
theorem flushSection_fields (st : ConvState) (s : Str) (hs : st.currentSection = some s) :
    (DP.flushSection st).currentSection = some s
    ∧ (DP.flushSection st).sectionItems = []
    ∧ (DP.flushSection st).inList = st.inList
    ∧ (DP.flushSection st).currentListType = st.currentListType
    ∧ (st.sectionItems ≠ [] → s ≠ "toc".data → s ≠ "ignore".data →
        (DP.flushSection st).html
          = st.html ++ SD.processSectionContent s [] (st.sectionItems.map SectionItem.s))
    ∧ (st.sectionItems = [] → (DP.flushSection st).html = st.html) := by
  unfold DP.flushSection
  rw [hs]
  dsimp only
  by_cases hi : st.sectionItems = []
  · rw [if_neg (by simp [hi])]
    exact ⟨hs, hi, rfl, rfl, fun h => absurd hi h, fun _ => rfl⟩
  · rw [if_pos hi]
    by_cases ht : s = "toc".data
    · rw [if_pos ht]
      exact ⟨rfl, rfl, rfl, rfl, fun _ h => absurd ht h, fun h => absurd h hi⟩
    · rw [if_neg ht]
      by_cases hg : s = "ignore".data
      · rw [if_neg (by simp [hg])]
        exact ⟨rfl, rfl, rfl, rfl, fun _ _ h => absurd hg h, fun h => absurd h hi⟩
      · rw [if_pos hg]
        exact ⟨rfl, rfl, rfl, rfl, fun _ _ _ => rfl, fun h => absurd h hi⟩

/-- Field effects of closing an open list: section state and buffer are
untouched and the output only grows. -/
theorem closeListIf_fields (st : ConvState) :
    (DP.closeListIf st).currentSection = st.currentSection
    ∧ (DP.closeListIf st).sectionItems = st.sectionItems
    ∧ (DP.closeListIf st).tocItems = st.tocItems
    ∧ ∃ r : Str, (DP.closeListIf st).html = st.html ++ r := by
  unfold DP.closeListIf
  by_cases hl : st.inList = true
  · rw [if_pos hl]
    exact ⟨rfl, rfl, rfl, _, rfl⟩
  · rw [if_neg hl]
    exact ⟨rfl, rfl, rfl, [], by simp⟩

/-- Field effects of processing a trigger heading: the new section becomes
current, the buffer is untouched, and the output only grows. -/
theorem headingProcess_trigger (line norm : Str) (st2 : ConvState) (t' : Str)
    (hh : DP.isHeading line = true) (hns : SD.isStartTag norm = false)
    (hd : SD.detectSectionType (DP.cleanHeadingText line) = some t') :
    (DP.headingProcess line norm st2).currentSection = some t'
    ∧ (DP.headingProcess line norm st2).sectionItems = st2.sectionItems
    ∧ ∃ r : Str, (DP.headingProcess line norm st2).html = st2.html ++ r := by
  unfold DP.headingProcess
  rw [hh, if_pos rfl]
  dsimp only
  rw [hd]
  dsimp only
  rw [hns, if_pos (by decide)]
  by_cases he : t' ≠ "toc".data ∧ t' ≠ "faq".data
  · rw [if_pos he]
    exact ⟨rfl, rfl, _, rfl⟩
  · rw [if_neg he]
    exact ⟨rfl, rfl, [], by simp⟩

/-- C3: the scan keeps at most one special section open — the state carries a
single `Option` section slot — and a new trigger (a known bracket start tag,
or a heading whose cleaned text is a trigger phrase) arriving while a section
is active closes the current section before opening the new one: the
resulting state has exactly the new section active with an empty buffer, and
a non-empty buffer of a renderable section (not `toc`, not `ignore`) is
rendered and appended to the output before anything else is emitted. -/
theorem new_trigger_closes_current_section :
    ∀ (lines : List Str) (i : Nat) (st : ConvState) (s t' line : Str),
      st.currentSection = some s →
      jsTrim (lines.getD i []) = line →
      line ≠ [] →
      containsSub line ("<TABLE>".data) = false →
      containsSub line ("<TABLE END>".data) = false →
      containsSub line ("TABLE END".data) = false →
      SD.isEndTag (jsToUpper line) = false →
      ((SD.isStartTag (jsToUpper line) = true
          ∧ SD.getSectionTypeFromTag (jsToUpper line) = some t')
        ∨ (DP.isHeading line = true ∧ SD.isStartTag (jsToUpper line) = false
            ∧ SD.detectSectionType (DP.cleanHeadingText line) = some t')) →
      (DP.stepAt lines i st).1.currentSection = some t'
      ∧ (DP.stepAt lines i st).1.sectionItems = []
      ∧ (st.sectionItems ≠ [] → s ≠ "toc".data → s ≠ "ignore".data →
          ∃ rest : Str, (DP.stepAt lines i st).1.html
            = st.html ++ SD.processSectionContent s [] (st.sectionItems.map SectionItem.s)
              ++ rest) := by
  intro lines i st s t' line hs hline hne hc1 hc2 hc3 hend htrig
  have hlt : jsTrim line = line := by rw [← hline, jsTrim_idem]
  have hnorm : jsTrim (jsToUpper line) = jsToUpper line := by
    rw [jsTrim_jsToUpper, hlt]
  have houter : (DP.isHeading line || SD.isStartTag (jsToUpper line)
      || SD.isEndTag (jsToUpper line)) = true := by
    rcases htrig with ⟨ha, _⟩ | ⟨hb, _, _⟩
    · simp [ha]
    · simp [hb]
  obtain ⟨hf1, hf2, _, _, hf5, _⟩ := flushSection_fields st s hs
  obtain ⟨hg1, hg2, _, hg4⟩ := closeListIf_fields (DP.flushSection st)
  simp only [DP.stepAt]
  rw [hline, hnorm]
  rw [if_neg hne, if_neg (by simp [hc1]), if_neg (by simp [hc2, hc3]),
    if_pos houter, if_neg (by simp [hend])]
  rcases htrig with ⟨ha, ha2⟩ | ⟨hb, hb2, hb3⟩
  · rw [if_pos ha, ha2]
    dsimp only
    refine ⟨rfl, ?_, ?_⟩
    · rw [hg2, hf2]
    · intro hi hnt hni
      obtain ⟨r, hr⟩ := hg4
      exact ⟨r, by rw [hr, hf5 hi hnt hni]⟩
  · rw [if_neg (by simp [hb2])]
    obtain ⟨hp1, hp2, hp3⟩ :=
      headingProcess_trigger line (jsToUpper line) (DP.closeListIf (DP.flushSection st)) t' hb hb2 hb3
    refine ⟨hp1, ?_, ?_⟩
    · rw [hp2, hg2, hf2]
    · intro hi hnt hni
      obtain ⟨r, hr⟩ := hg4
      obtain ⟨r2, hr2⟩ := hp3
      refine ⟨r ++ r2, ?_⟩
      rw [hr2, hr, hf5 hi hnt hni]
      simp [List.append_assoc]

/-- C3 (witness): a `KEY TAKEAWAYS` trigger heading arriving while a `steps`
section with a buffered line is active closes and renders the steps section
and opens `key-takeaways` with an empty buffer. -/
theorem new_trigger_closes_current_section_witness :
    ({ DP.initState with currentSection := some ("steps".data), sectionItems := ["Do: this".data] } : ConvState).currentSection
      = some ("steps".data)
    ∧ ((DP.stepAt ["KEY TAKEAWAYS".data] 0
          { DP.initState with currentSection := some ("steps".data), sectionItems := ["Do: this".data] }).1.currentSection
        = some ("key-takeaways".data)
      ∧ (DP.stepAt ["KEY TAKEAWAYS".data] 0
          { DP.initState with currentSection := some ("steps".data), sectionItems := ["Do: this".data] }).1.sectionItems = []
      ∧ ((["Do: this".data] : List Str) ≠ [] → ("steps".data : Str) ≠ "toc".data →
          ("steps".data : Str) ≠ "ignore".data →
          ∃ rest : Str,
            (DP.stepAt ["KEY TAKEAWAYS".data] 0
              { DP.initState with currentSection := some ("steps".data), sectionItems := ["Do: this".data] }).1.html
              = ({ DP.initState with currentSection := some ("steps".data), sectionItems := ["Do: this".data] } : ConvState).html
                ++ SD.processSectionContent ("steps".data) []
                    ((["Do: this".data] : List Str).map SectionItem.s) ++ rest)) :=
  ⟨by decide,
   new_trigger_closes_current_section ["KEY TAKEAWAYS".data] 0
     { DP.initState with currentSection := some ("steps".data), sectionItems := ["Do: this".data] }
     ("steps".data) ("key-takeaways".data) ("KEY TAKEAWAYS".data)
     (by decide) (by decide) (by decide) (by decide) (by decide) (by decide) (by decide)
     (Or.inr ⟨by decide, by decide, by decide⟩)⟩

/-- Closing an `ignore` section discards its buffer without emitting
anything. -/
theorem flushSectionEnd_ignore (st : ConvState)
    (hs : st.currentSection = some ("ignore".data)) :
    (DP.flushSectionEnd st).html = st.html
    ∧ (st.sectionItems = [] → (DP.flushSectionEnd st).sectionItems = [])
    ∧ (st.sectionItems ≠ [] → (DP.flushSectionEnd st).sectionItems = []) := by
  unfold DP.flushSectionEnd
  rw [hs]
  dsimp only
  by_cases hi : st.sectionItems = []
  · rw [if_neg (by simp [hi])]
    exact ⟨rfl, fun _ => hi, fun h => absurd hi h⟩
  · rw [if_pos hi, if_neg (by simp)]
    exact ⟨rfl, fun h => absurd h hi, fun _ => rfl⟩

set_option maxRecDepth 8000 in
/-- C8 (counterexample): an `<IGNORE>`…`<IGNORE END>` region is not
transparent to its surroundings — it closes an open list, so `- a / ignore
region / - b` renders as two separate lists while `- a / - b` renders as one;
the claim that surrounding content renders as it would without the region is
false. -/
theorem ignore_region_not_transparent :
    DP.convertTextToHTML ("- a\n<IGNORE>\nx\n<IGNORE END>\n- b".data)
      = ("<ul class=\"bullet-new-box\"> <li>a</li>\n</ul>\n<ul class=\"bullet-new-box\"> <li>b</li>\n</ul>").data
    ∧ DP.convertTextToHTML ("- a\n- b".data)
      = ("<ul class=\"bullet-new-box\"> <li>a</li> <li>b</li>\n</ul>").data
    ∧ DP.convertTextToHTML ("- a\n<IGNORE>\nx\n<IGNORE END>\n- b".data)
      ≠ DP.convertTextToHTML ("- a\n- b".data) :=
  ⟨by decide, by decide, by decide⟩

/-- C8 (amended): the `ignore` renderer always returns the empty string, and
the transducer emits nothing when an `ignore` section is closed by an end
tag (the buffer is discarded, the output is unchanged); however the region
is not invisible to its surroundings — see the counterexample, where the
`<IGNORE>` trigger closes an open list and splits it in two. -/
theorem ignore_section_emits_nothing :
    (∀ (content : Str) (items : List SectionItem),
      SD.processSectionContent ("ignore".data) content items = [])
    ∧ ∀ (lines : List Str) (i : Nat) (st : ConvState) (line : Str),
        st.currentSection = some ("ignore".data) →
        jsTrim (lines.getD i []) = line →
        line ≠ [] →
        containsSub line ("<TABLE>".data) = false →
        containsSub line ("<TABLE END>".data) = false →
        containsSub line ("TABLE END".data) = false →
        SD.isEndTag (jsToUpper line) = true →
        (DP.stepAt lines i st).1.html = st.html
        ∧ (DP.stepAt lines i st).1.currentSection = none
        ∧ (DP.stepAt lines i st).1.sectionItems = [] := by
  constructor
  · intro content items
    unfold SD.processSectionContent
    rw [if_neg (by decide), if_neg (by decide), if_neg (by decide), if_neg (by decide),
      if_neg (by decide), if_neg (by decide), if_neg (by decide), if_neg (by decide),
      if_neg (by decide), if_neg (by decide), if_pos (by decide)]
    rfl
  · intro lines i st line hs hline hne hc1 hc2 hc3 hend
    have hlt : jsTrim line = line := by rw [← hline, jsTrim_idem]
    have hnorm : jsTrim (jsToUpper line) = jsToUpper line := by
      rw [jsTrim_jsToUpper, hlt]
    obtain ⟨he1, he2, he3⟩ := flushSectionEnd_ignore st hs
    simp only [DP.stepAt]
    rw [hline, hnorm]
    rw [if_neg hne, if_neg (by simp [hc1]), if_neg (by simp [hc2, hc3]),
      if_pos (by simp [hend]), if_pos hend]
    refine ⟨he1, rfl, ?_⟩
    by_cases hi : st.sectionItems = []
    · exact he2 hi
    · exact he3 hi

/-- C8 (witness): closing an `ignore` section holding a buffered line with
`<IGNORE END>` leaves the output untouched and clears the section. -/
theorem ignore_section_emits_nothing_witness :
    ({ DP.initState with currentSection := some ("ignore".data), sectionItems := ["x".data] } : ConvState).currentSection = some ("ignore".data)
    ∧ ((DP.stepAt ["<IGNORE END>".data] 0 { DP.initState with currentSection := some ("ignore".data), sectionItems := ["x".data] }).1.html
        = ({ DP.initState with currentSection := some ("ignore".data), sectionItems := ["x".data] } : ConvState).html
      ∧ (DP.stepAt ["<IGNORE END>".data] 0 { DP.initState with currentSection := some ("ignore".data), sectionItems := ["x".data] }).1.currentSection = none
      ∧ (DP.stepAt ["<IGNORE END>".data] 0 { DP.initState with currentSection := some ("ignore".data), sectionItems := ["x".data] }).1.sectionItems = []) :=
  ⟨by decide,
   ignore_section_emits_nothing.2 ["<IGNORE END>".data] 0
     { DP.initState with currentSection := some ("ignore".data), sectionItems := ["x".data] }
     ("<IGNORE END>".data)
     (by decide) (by decide) (by decide) (by decide) (by decide) (by decide) (by decide)⟩

/-- C2 (counterexample): `cleanupHTML` is not idempotent — on
`<ul><li></li></ul>` the first pass removes the empty `<li>` (step 6),
leaving `<ul></ul>`, and only the second pass removes the now-empty list
(step 5), so `cleanup(cleanup(h)) ≠ cleanup(h)`. -/
theorem cleanupHTML_not_idempotent :
    DP.cleanupHTML ("<ul><li></li></ul>".data) = "<ul></ul>".data
    ∧ DP.cleanupHTML (DP.cleanupHTML ("<ul><li></li></ul>".data)) = []
    ∧ DP.cleanupHTML (DP.cleanupHTML ("<ul><li></li></ul>".data))
      ≠ DP.cleanupHTML ("<ul><li></li></ul>".data) :=
  ⟨by decide, by decide, by decide⟩

/-- A scan whose matcher never fires on a class of strings closed under
tails is the identity there. -/
theorem scanGo_id_of (tryM : Str → Option (Str × Nat)) (Q : Str → Prop)
    (hnone : ∀ s, Q s → tryM s = none)
    (htail : ∀ c rest, Q (c :: rest) → Q rest) :
    ∀ fuel s, Q s → scanGo tryM fuel s = s := by
  intro fuel
  induction fuel with
  | zero => intro s _; rfl
  | succ n ih =>
    intro s hQ
    cases s with
    | nil => rfl
    | cons c rest =>
      simp only [scanGo, hnone _ hQ]
      rw [ih rest (htail _ _ hQ)]

/-- Stateful version of `scanGo_id_of`. -/
theorem scanStGo_id_of {σ : Type} (tryM : σ → Str → Option (Str × Nat × σ))
    (upd : σ → Char → σ) (Q : Str → Prop)
    (hnone : ∀ (st : σ) s, Q s → tryM st s = none)
    (htail : ∀ c rest, Q (c :: rest) → Q rest) :
    ∀ fuel (st : σ) s, Q s → scanStGo tryM upd fuel st s = s := by
  intro fuel
  induction fuel with
  | zero => intro st s _; rfl
  | succ n ih =>
    intro st s hQ
    cases s with
    | nil => rfl
    | cons c rest =>
      simp only [scanStGo, hnone _ _ hQ]
      rw [ih _ rest (htail _ _ hQ)]

/-- Every character of a scan output is a character of the input or of some
replacement the matcher can emit. -/
theorem mem_scanGo (tryM : Str → Option (Str × Nat)) (P : Char → Prop)
    (hout : ∀ s out k, tryM s = some (out, k) → ∀ c ∈ out, P c) :
    ∀ fuel s, (∀ c ∈ s, P c) → ∀ c ∈ scanGo tryM fuel s, P c := by
  intro fuel
  induction fuel with
  | zero => intro s hs c hc; exact hs c hc
  | succ n ih =>
    intro s hs c hc
    cases s with
    | nil => simp [scanGo] at hc
    | cons a rest =>
      rcases hm : tryM (a :: rest) with _ | ⟨out, k⟩
      · simp only [scanGo, hm] at hc
        rcases List.mem_cons.mp hc with rfl | h2
        · exact hs c (List.mem_cons_self _ _)
        · exact ih rest (fun d hd => hs d (List.mem_cons_of_mem _ hd)) c h2
      · simp only [scanGo, hm] at hc
        rcases List.mem_append.mp hc with h1 | h2
        · exact hout _ _ _ hm c h1
        · exact ih _ (fun d hd => hs d (List.mem_of_mem_drop hd)) c h2

/-- A lower-case image outside the letter range forces equality of the
characters themselves. -/
theorem toLower_eq_nonletter {c d : Char} (hd : d.toNat < 97 ∨ 122 < d.toNat)
    (h : Char.toLower c = d) : c = d := by
  simp only [Char.toLower] at h
  split at h
  · rename_i hn
    simp only [ge_iff_le, decide_eq_true_eq] at hn
    have hv : ((c.toNat + 32) : Nat).isValidChar := by
      constructor
      omega
    have h2 : (Char.ofNat (c.toNat + 32)).toNat = c.toNat + 32 := by
      rw [Char.ofNat, dif_pos hv]
      simp [Char.ofNatAux, Char.toNat, UInt32.toNat, BitVec.toNat_ofNatLt]
    rw [h] at h2
    rcases hd with hd | hd <;> omega
  · exact h

/-- A case-insensitive literal starting with a character different from the
(lower-cased) head of the string does not match. -/
theorem strStartsWithCI_head_ne {c p : Char} {rest pat : Str}
    (hpat : (jsToLower pat).head? = some p) (hne : Char.toLower c ≠ p) :
    strStartsWithCI (c :: rest) pat = false := by
  obtain ⟨ps, hps⟩ : ∃ ps, jsToLower pat = p :: ps := by
    cases hh : jsToLower pat with
    | nil => rw [hh] at hpat; simp at hpat
    | cons a t =>
      rw [hh] at hpat
      simp only [List.head?_cons, Option.some.injEq] at hpat
      exact ⟨t, by rw [hpat]⟩
  unfold strStartsWithCI
  rw [hps]
  rw [show jsToLower (c :: rest) = Char.toLower c :: jsToLower rest from rfl]
  unfold strStartsWith
  rw [beq_eq_false_iff_ne.mpr hne]
  simp

/-- A case-insensitive non-empty literal does not match the empty string. -/
theorem strStartsWithCI_nil_false {pat : Str} {p : Char}
    (hpat : (jsToLower pat).head? = some p) :
    strStartsWithCI [] pat = false := by
  obtain ⟨ps, hps⟩ : ∃ ps, jsToLower pat = p :: ps := by
    cases hh : jsToLower pat with
    | nil => rw [hh] at hpat; simp at hpat
    | cons a t =>
      rw [hh] at hpat
      simp only [List.head?_cons, Option.some.injEq] at hpat
      exact ⟨t, by rw [hpat]⟩
  unfold strStartsWithCI
  rw [hps]
  rfl

/-- A character other than `<` lower-cases to something other than `<`. -/
theorem toLower_ne_lt {c : Char} (hc : c ≠ '<') : Char.toLower c ≠ '<' :=
  fun h => hc (toLower_eq_nonletter (Or.inl (by decide)) h)

/-- A character other than `&` lower-cases to something other than `&`. -/
theorem toLower_ne_amp {c : Char} (hc : c ≠ '&') : Char.toLower c ≠ '&' :=
  fun h => hc (toLower_eq_nonletter (Or.inl (by decide)) h)

/-- The empty-paragraph matcher never fires without a `<`. -/
theorem emptyPMatcher_none : ∀ {s : Str}, '<' ∉ s → DP.emptyPMatcher s = none := by
  intro s h
  cases s with
  | nil => decide
  | cons c rest =>
    have hc : c ≠ '<' := fun he => h (he ▸ List.mem_cons_self _ _)
    unfold DP.emptyPMatcher
    rw [strStartsWithCI_head_ne (show (jsToLower ("<p>".data)).head? = some '<' from by decide)
      (toLower_ne_lt hc)]
    simp

/-- The whitespace-paragraph matcher never fires without a `<`. -/
theorem wsOnlyPMatcher_none : ∀ {s : Str}, '<' ∉ s → DP.wsOnlyPMatcher s = none := by
  intro s h
  cases s with
  | nil => decide
  | cons c rest =>
    have hc : c ≠ '<' := fun he => h (he ▸ List.mem_cons_self _ _)
    unfold DP.wsOnlyPMatcher
    rw [strStartsWithCI_head_ne (show (jsToLower ("<p>".data)).head? = some '<' from by decide)
      (toLower_ne_lt hc)]
    simp

/-- The empty-container matcher never fires without a `<`. -/
theorem emptyBlockMatcher_none {openLit closeLit : Str} {needNl : Bool}
    (hpat : (jsToLower openLit).head? = some '<') :
    ∀ {s : Str}, '<' ∉ s → DP.emptyBlockMatcher openLit closeLit needNl s = none := by
  intro s h
  cases s with
  | nil =>
    unfold DP.emptyBlockMatcher
    rw [strStartsWithCI_nil_false hpat]
    simp
  | cons c rest =>
    have hc : c ≠ '<' := fun he => h (he ▸ List.mem_cons_self _ _)
    unfold DP.emptyBlockMatcher
    rw [strStartsWithCI_head_ne hpat (toLower_ne_lt hc)]
    simp

/-- The empty-list-item matcher never fires without a `<`. -/
theorem emptyLiMatcher_none : ∀ {s : Str}, '<' ∉ s → DP.emptyLiMatcher s = none := by
  intro s h
  cases s with
  | nil => decide
  | cons c rest =>
    have hc : c ≠ '<' := fun he => h (he ▸ List.mem_cons_self _ _)
    unfold DP.emptyLiMatcher
    rw [strStartsWithCI_head_ne
      (show (jsToLower ("<li>".data)).head? = some '<' from by decide)
      (toLower_ne_lt hc)]
    simp

/-- The heading parser never fires without a `<`. -/
theorem parseHeading_none : ∀ {s : Str}, '<' ∉ s → DP.parseHeading s = none := by
  intro s h
  unfold DP.parseHeading
  split
  · exact absurd (List.mem_cons_self _ _) h
  · rfl

/-- The duplicate-heading matcher never fires without a `<`. -/
theorem dedupHeadingMatcher_none (seen : List Str) :
    ∀ {s : Str}, '<' ∉ s → DP.dedupHeadingMatcher seen s = none := by
  intro s h
  unfold DP.dedupHeadingMatcher
  rw [parseHeading_none h]

/-- The `<br>` unit parser never fires without a `<`. -/
theorem parseBrUnit_none : ∀ {s : Str}, '<' ∉ s → DP.parseBrUnit s = none := by
  intro s h
  cases s with
  | nil => decide
  | cons c rest =>
    have hc : c ≠ '<' := fun he => h (he ▸ List.mem_cons_self _ _)
    unfold DP.parseBrUnit
    rw [strStartsWithCI_head_ne
      (show (jsToLower ("<br".data)).head? = some '<' from by decide)
      (toLower_ne_lt hc)]
    simp

/-- The `<br>` run matcher never fires without a `<`. -/
theorem brMatcher_none {s : Str} (h : '<' ∉ s) : DP.brMatcher s = none := by
  have hz : ∀ fuel, DP.brRunGo fuel s = (0, 0) := by
    intro fuel
    cases fuel with
    | zero => rfl
    | succ n =>
      unfold DP.brRunGo
      rw [parseBrUnit_none h]
  unfold DP.brMatcher
  rw [hz]
  simp

/-- The `&nbsp;` run matcher never fires without a `&`. -/
theorem nbspMatcher_none {s : Str} (h : '&' ∉ s) : DP.nbspMatcher s = none := by
  have hci : strStartsWithCI s ("&nbsp;".data) = false := by
    cases s with
    | nil => decide
    | cons c rest =>
      have hc : c ≠ '&' := fun he => h (he ▸ List.mem_cons_self _ _)
      exact strStartsWithCI_head_ne
        (show (jsToLower ("&nbsp;".data)).head? = some '&' from by decide)
        (toLower_ne_amp hc)
  have hz : ∀ fuel, DP.nbspRunGo fuel s = (0, 0) := by
    intro fuel
    cases fuel with
    | zero => rfl
    | succ n =>
      unfold DP.nbspRunGo
      rw [hci]
      simp
  unfold DP.nbspMatcher
  rw [hz]
  simp

/-- Block collection finds nothing without a `<`. -/
theorem collectBlocksGo_nil {openLit closeLit : Str}
    (hpat : (jsToLower openLit).head? = some '<') :
    ∀ (fuel : Nat) (s : Str), '<' ∉ s → collectBlocksGo openLit closeLit fuel s = [] := by
  intro fuel
  induction fuel with
  | zero => intro s _; rfl
  | succ n ih =>
    intro s h
    cases s with
    | nil => rfl
    | cons c rest =>
      have hc : c ≠ '<' := fun he => h (he ▸ List.mem_cons_self _ _)
      unfold collectBlocksGo
      dsimp only
      rw [strStartsWithCI_head_ne hpat (toLower_ne_lt hc)]
      simp only [Bool.false_eq_true, if_false]
      exact ih rest (fun hm => h (List.mem_cons_of_mem _ hm))

/-- The newline-run matcher only ever emits two newlines. -/
theorem nlRunsMatcher_out : ∀ {s out : Str} {k : Nat},
    DP.nlRunsMatcher s = some (out, k) → out = "\n\n".data := by
  intro s out k h
  unfold DP.nlRunsMatcher at h
  dsimp only at h
  split at h
  · split at h
    · simp only [Option.some.injEq, Prod.mk.injEq] at h
      exact h.1.symm
    · exact absurd h (by simp)
  · exact absurd h (by simp)

/-- The triple-newline matcher only ever emits two newlines. -/
theorem nl3Matcher_out : ∀ {s out : Str} {k : Nat},
    DP.nl3Matcher s = some (out, k) → out = "\n\n".data := by
  intro s out k h
  unfold DP.nl3Matcher at h
  dsimp only at h
  split at h
  · split at h
    · simp only [Option.some.injEq, Prod.mk.injEq] at h
      exact h.1.symm
    · exact absurd h (by simp)
  · exact absurd h (by simp)

/-- The whitespace-collapse matcher only ever emits a single space. -/
theorem ws2Matcher_out : ∀ {s out : Str} {k : Nat},
    DP.ws2Matcher s = some (out, k) → out = [' '] := by
  intro s out k h
  unfold DP.ws2Matcher at h
  dsimp only at h
  split at h
  · split at h
    · split at h
      · simp only [Option.some.injEq, Prod.mk.injEq] at h
        exact h.1.symm
      · exact absurd h (by simp)
    · exact absurd h (by simp)
  · exact absurd h (by simp)

/-- On markup-free input (no `<`, no `&`) the cleanup pipeline reduces to
newline collapsing, whitespace collapsing and trimming. -/
theorem cleanupHTML_plain {s : Str} (hlt : '<' ∉ s) (hamp : '&' ∉ s) :
    DP.cleanupHTML s
      = jsTrim (scanRepl DP.ws2Matcher
          (scanRepl DP.nl3Matcher (scanRepl DP.nlRunsMatcher s))) := by
  have htail : ∀ (c : Char) (rest : Str), '<' ∉ c :: rest → '<' ∉ rest :=
    fun c rest h hm => h (List.mem_cons_of_mem _ hm)
  have hPs : ∀ c ∈ s, c ≠ '<' ∧ c ≠ '&' :=
    fun c hc => ⟨fun he => hlt (he ▸ hc), fun he => hamp (he ▸ hc)⟩
  have hPnl : ∀ (s' out : Str) (k : Nat), DP.nlRunsMatcher s' = some (out, k) →
      ∀ c ∈ out, c ≠ '<' ∧ c ≠ '&' := by
    intro s' out k hm c hc
    rw [nlRunsMatcher_out hm] at hc
    have hc' : c = '\n' := by simpa using hc
    subst hc'
    exact ⟨by decide, by decide⟩
  have hPnl3 : ∀ (s' out : Str) (k : Nat), DP.nl3Matcher s' = some (out, k) →
      ∀ c ∈ out, c ≠ '<' ∧ c ≠ '&' := by
    intro s' out k hm c hc
    rw [nl3Matcher_out hm] at hc
    have hc' : c = '\n' := by simpa using hc
    subst hc'
    exact ⟨by decide, by decide⟩
  have hPws : ∀ (s' out : Str) (k : Nat), DP.ws2Matcher s' = some (out, k) →
      ∀ c ∈ out, c ≠ '<' ∧ c ≠ '&' := by
    intro s' out k hm c hc
    rw [ws2Matcher_out hm] at hc
    have hc' : c = ' ' := by simpa using hc
    subst hc'
    exact ⟨by decide, by decide⟩
  have hP4 : ∀ c ∈ scanRepl DP.nl3Matcher (scanRepl DP.nlRunsMatcher s), c ≠ '<' ∧ c ≠ '&' :=
    mem_scanGo _ (fun c => c ≠ '<' ∧ c ≠ '&') hPnl3 _ _
      (mem_scanGo _ (fun c => c ≠ '<' ∧ c ≠ '&') hPnl _ _ hPs)
  have hlt4 : '<' ∉ scanRepl DP.nl3Matcher (scanRepl DP.nlRunsMatcher s) :=
    fun hm => (hP4 '<' hm).1 rfl
  have hP7 : ∀ c ∈ scanRepl DP.ws2Matcher
      (scanRepl DP.nl3Matcher (scanRepl DP.nlRunsMatcher s)), c ≠ '<' ∧ c ≠ '&' :=
    mem_scanGo _ (fun c => c ≠ '<' ∧ c ≠ '&') hPws _ _ hP4
  have hlt7 : '<' ∉ scanRepl DP.ws2Matcher
      (scanRepl DP.nl3Matcher (scanRepl DP.nlRunsMatcher s)) :=
    fun hm => (hP7 '<' hm).1 rfl
  have hamp7 : '&' ∉ scanRepl DP.ws2Matcher
      (scanRepl DP.nl3Matcher (scanRepl DP.nlRunsMatcher s)) :=
    fun hm => (hP7 '&' hm).2 rfl
  unfold DP.cleanupHTML
  rw [show collectBlocks ("<div class=\"blog_index_cover\"".data) ("</div>".data) s = []
      from collectBlocksGo_nil (by decide) _ _ hlt]
  dsimp only
  rw [if_neg (show ¬(1 < ([] : List Str).length) from by decide)]
  rw [show scanStRepl DP.dedupHeadingMatcher (fun st _ => st) [] s = s from
    scanStGo_id_of _ _ (fun s' => '<' ∉ s') (fun st s' hs' => dedupHeadingMatcher_none st hs') htail _ _ _ hlt]
  rw [show collectBlocks ("<div class=\"faq_blog\"".data) ("</div>".data) s = []
      from collectBlocksGo_nil (by decide) _ _ hlt]
  rw [if_neg (show ¬(1 < ([] : List Str).length) from by decide)]
  rw [show scanRepl DP.emptyPMatcher s = s from
    scanGo_id_of _ (fun s' => '<' ∉ s') (fun _ => emptyPMatcher_none) htail _ _ hlt]
  rw [show scanRepl DP.wsOnlyPMatcher s = s from
    scanGo_id_of _ (fun s' => '<' ∉ s') (fun _ => wsOnlyPMatcher_none) htail _ _ hlt]
  rw [show scanRepl (DP.emptyBlockMatcher ("<ul".data) ("</ul>".data) false)
      (scanRepl DP.nl3Matcher (scanRepl DP.nlRunsMatcher s))
      = scanRepl DP.nl3Matcher (scanRepl DP.nlRunsMatcher s) from
    scanGo_id_of _ (fun s' => '<' ∉ s')
      (fun _ => emptyBlockMatcher_none (by decide)) htail _ _ hlt4]
  rw [show scanRepl (DP.emptyBlockMatcher ("<ol".data) ("</ol>".data) false)
      (scanRepl DP.nl3Matcher (scanRepl DP.nlRunsMatcher s))
      = scanRepl DP.nl3Matcher (scanRepl DP.nlRunsMatcher s) from
    scanGo_id_of _ (fun s' => '<' ∉ s')
      (fun _ => emptyBlockMatcher_none (by decide)) htail _ _ hlt4]
  rw [show scanRepl (DP.emptyBlockMatcher ("<ul".data) ("</ul>".data) true)
      (scanRepl DP.nl3Matcher (scanRepl DP.nlRunsMatcher s))
      = scanRepl DP.nl3Matcher (scanRepl DP.nlRunsMatcher s) from
    scanGo_id_of _ (fun s' => '<' ∉ s')
      (fun _ => emptyBlockMatcher_none (by decide)) htail _ _ hlt4]
  rw [show scanRepl (DP.emptyBlockMatcher ("<ol".data) ("</ol>".data) true)
      (scanRepl DP.nl3Matcher (scanRepl DP.nlRunsMatcher s))
      = scanRepl DP.nl3Matcher (scanRepl DP.nlRunsMatcher s) from
    scanGo_id_of _ (fun s' => '<' ∉ s')
      (fun _ => emptyBlockMatcher_none (by decide)) htail _ _ hlt4]
  rw [show scanRepl DP.emptyLiMatcher (scanRepl DP.nl3Matcher (scanRepl DP.nlRunsMatcher s))
      = scanRepl DP.nl3Matcher (scanRepl DP.nlRunsMatcher s) from
    scanGo_id_of _ (fun s' => '<' ∉ s') (fun _ => emptyLiMatcher_none) htail _ _ hlt4]
  rw [show scanRepl DP.brMatcher (scanRepl DP.ws2Matcher
        (scanRepl DP.nl3Matcher (scanRepl DP.nlRunsMatcher s)))
      = scanRepl DP.ws2Matcher (scanRepl DP.nl3Matcher (scanRepl DP.nlRunsMatcher s)) from
    scanGo_id_of _ (fun s' => '<' ∉ s') (fun _ => brMatcher_none) htail _ _ hlt7]
  rw [show scanRepl DP.nbspMatcher (scanRepl DP.ws2Matcher
        (scanRepl DP.nl3Matcher (scanRepl DP.nlRunsMatcher s)))
      = scanRepl DP.ws2Matcher (scanRepl DP.nl3Matcher (scanRepl DP.nlRunsMatcher s)) from
    scanGo_id_of _ (fun s' => '&' ∉ s') (fun _ => nbspMatcher_none)
      (fun c rest h hm => h (List.mem_cons_of_mem _ hm)) _ _ hamp7]

/-- `scanGo` on the empty string is empty. -/
theorem scanGo_nil (tryM : Str → Option (Str × Nat)) :
    ∀ fuel, scanGo tryM fuel [] = [] := by
  intro fuel
  cases fuel <;> rfl

/-- The tail of a string without adjacent whitespace has none either. -/
theorem noWs2_tail : ∀ {c : Char} {t : Str}, noWs2 (c :: t) = true → noWs2 t = true := by
  intro c t h
  cases t with
  | nil => rfl
  | cons b r =>
    simp only [noWs2, Bool.and_eq_true] at h
    exact h.2

/-- Build `noWs2` from the tail plus non-adjacency at the head. -/
theorem noWs2_cons_of {c : Char} {t : Str} (h1 : noWs2 t = true)
    (h2 : ∀ b, t.head? = some b → jsIsWs c = true → jsIsWs b = false) :
    noWs2 (c :: t) = true := by
  cases t with
  | nil => rfl
  | cons b r =>
    simp only [noWs2, Bool.and_eq_true]
    refine ⟨?_, h1⟩
    cases hc : jsIsWs c with
    | false => simp [hc]
    | true => simp [hc, h2 b rfl hc]

/-- The no-adjacent-whitespace property restricts to left parts. -/
theorem noWs2_append_left : ∀ {l r : Str}, noWs2 (l ++ r) = true → noWs2 l = true := by
  intro l
  induction l with
  | nil => intro r _; rfl
  | cons a t ih =>
    intro r h
    cases t with
    | nil => rfl
    | cons b u =>
      simp only [List.cons_append, noWs2, Bool.and_eq_true] at h ⊢
      exact ⟨h.1, ih (r := r) h.2⟩

/-- The no-adjacent-whitespace property restricts to right parts. -/
theorem noWs2_append_right : ∀ {l r : Str}, noWs2 (l ++ r) = true → noWs2 r = true := by
  intro l
  induction l with
  | nil => intro r h; exact h
  | cons a t ih =>
    intro r h
    exact ih (noWs2_tail h)

/-- Trimming preserves the absence of adjacent whitespace. -/
theorem noWs2_jsTrim {s : Str} (h : noWs2 s = true) : noWs2 (jsTrim s) = true := by
  have h1 : noWs2 (s.dropWhile jsIsWs) = true := by
    obtain ⟨t, ht⟩ := List.dropWhile_suffix (l := s) (p := jsIsWs)
    rw [← ht] at h
    exact noWs2_append_right h
  obtain ⟨t, ht⟩ := List.rdropWhile_prefix jsIsWs (s.dropWhile jsIsWs)
  rw [← ht] at h1
  exact noWs2_append_left h1

/-- Characters of the trimmed string come from the original. -/
theorem mem_jsTrim {c : Char} {s : Str} (h : c ∈ jsTrim s) : c ∈ s := by
  have h1 : c ∈ s.dropWhile jsIsWs :=
    ( List.rdropWhile_prefix jsIsWs (s.dropWhile jsIsWs)).subset h
  exact (List.dropWhile_suffix jsIsWs).subset h1

/-- Dropping the matched-run length is `dropWhile`. -/
theorem drop_takeWhile_len (p : Char → Bool) :
    ∀ l : Str, l.drop (l.takeWhile p).length = l.dropWhile p := by
  intro l
  induction l with
  | nil => rfl
  | cons a t ih =>
    cases hp : p a with
    | true => simpa [List.takeWhile_cons, List.dropWhile_cons, hp] using ih
    | false => simp [List.takeWhile_cons, List.dropWhile_cons, hp]

/-- Any head the `dropWhile` result has fails the predicate. -/
theorem head_dropWhile_false (p : Char → Bool) :
    ∀ (l : Str) (b : Char), (l.dropWhile p).head? = some b → p b = false := by
  intro l
  induction l with
  | nil => intro b hb; simp at hb
  | cons a t ih =>
    intro b hb
    cases hp : p a with
    | true =>
      simp only [List.dropWhile_cons, hp, if_true] at hb
      exact ih b hb
    | false =>
      simp only [List.dropWhile_cons, hp, Bool.false_eq_true, if_false, List.head?_cons,
        Option.some.injEq] at hb
      rw [← hb]
      exact hp

/-- The whitespace-collapse scan keeps a non-whitespace head. -/
theorem ws2_scan_head (fuel : Nat) (s : Str)
    (hs : ∀ b, s.head? = some b → jsIsWs b = false) :
    ∀ b, (scanGo DP.ws2Matcher fuel s).head? = some b → jsIsWs b = false := by
  intro b hb
  cases s with
  | nil =>
    rw [scanGo_nil] at hb
    simp at hb
  | cons c rest =>
    have hc : jsIsWs c = false := hs c rfl
    cases fuel with
    | zero => exact hs b hb
    | succ n =>
      have hm : DP.ws2Matcher (c :: rest) = none := by
        simp [DP.ws2Matcher, hc]
      simp only [scanGo, hm, List.head?_cons, Option.some.injEq] at hb
      rw [← hb]
      exact hc

/-- Without adjacent whitespace the collapse matcher never fires. -/
theorem ws2Matcher_none_noWs2 : ∀ {s : Str}, noWs2 s = true → DP.ws2Matcher s = none := by
  intro s h
  cases s with
  | nil => rfl
  | cons c rest =>
    cases hc : jsIsWs c with
    | false => simp [DP.ws2Matcher, hc]
    | true =>
      have htw : rest.takeWhile jsIsWs = [] := by
        cases rest with
        | nil => rfl
        | cons b r =>
          simp only [noWs2, Bool.and_eq_true] at h
          have h1 := h.1
          rw [hc] at h1
          have hb : jsIsWs b = false := by simpa using h1
          simp [List.takeWhile_cons, hb]
      simp [DP.ws2Matcher, hc, List.takeWhile_cons, htw]

/-- Without adjacent whitespace the triple-newline matcher never fires. -/
theorem nl3Matcher_none_noWs2 : ∀ {s : Str}, noWs2 s = true → DP.nl3Matcher s = none := by
  intro s h
  unfold DP.nl3Matcher
  split
  · rename_i rest
    have hrun : (('\n' : Char) :: rest).takeWhile (· == '\n') = ['\n'] := by
      cases rest with
      | nil => rfl
      | cons b r =>
        simp only [noWs2, Bool.and_eq_true] at h
        have h1 := h.1
        rw [show jsIsWs '\n' = true from by decide] at h1
        have hb : jsIsWs b = false := by simpa using h1
        have hb2 : (b == '\n') = false := by
          cases hbe : b == '\n' with
          | false => rfl
          | true =>
            have : b = '\n' := by simpa using hbe
            rw [this] at hb
            exact absurd hb (by decide)
        simp [List.takeWhile_cons, hb2]
    dsimp only
    rw [hrun, if_neg (by decide)]
  · rfl

/-- Without adjacent whitespace the newline-run matcher never fires. -/
theorem nlRunsMatcher_none_noWs2 : ∀ {s : Str}, noWs2 s = true →
    DP.nlRunsMatcher s = none := by
  intro s h
  unfold DP.nlRunsMatcher
  split
  · rename_i rest
    have hrun : (('\n' : Char) :: rest).takeWhile jsIsWs = ['\n'] := by
      cases rest with
      | nil => rfl
      | cons b r =>
        simp only [noWs2, Bool.and_eq_true] at h
        have h1 := h.1
        rw [show jsIsWs '\n' = true from by decide] at h1
        have hb : jsIsWs b = false := by simpa using h1
        simp [List.takeWhile_cons, hb, show jsIsWs '\n' = true from by decide]
    dsimp only
    rw [hrun, if_neg (by decide)]
  · rfl

/-- The whitespace collapse leaves no adjacent whitespace behind. -/
theorem ws2_scan_noWs2 : ∀ (fuel : Nat) (s : Str), s.length ≤ fuel →
    noWs2 (scanGo DP.ws2Matcher fuel s) = true := by
  intro fuel
  induction fuel with
  | zero =>
    intro s hs
    have he : s = [] := List.eq_nil_of_length_eq_zero (Nat.le_zero.mp hs)
    rw [he]
    rfl
  | succ n ih =>
    intro s hs
    cases s with
    | nil => rfl
    | cons c rest =>
      have hr : rest.length ≤ n := by
        simp only [List.length_cons] at hs
        omega
      cases hc : jsIsWs c with
      | false =>
        have hm : DP.ws2Matcher (c :: rest) = none := by
          simp [DP.ws2Matcher, hc]
        simp only [scanGo, hm]
        exact noWs2_cons_of (ih rest hr)
          (fun b _ hcw => absurd (hc.symm.trans hcw) (by decide))
      | true =>
        cases hrest : rest with
        | nil =>
          have hm : DP.ws2Matcher [c] = none := by
            simp [DP.ws2Matcher, hc, List.takeWhile_cons]
          simp only [scanGo, hm]
          rw [scanGo_nil]
          rfl
        | cons b r =>
          cases hb : jsIsWs b with
          | false =>
            have hm : DP.ws2Matcher (c :: b :: r) = none := by
              simp [DP.ws2Matcher, hc, List.takeWhile_cons, hb]
            simp only [scanGo, hm]
            refine noWs2_cons_of (ih (b :: r) (hrest ▸ hr)) ?_
            intro d hd _
            refine ws2_scan_head n (b :: r) ?_ d hd
            intro e he
            simp only [List.head?_cons, Option.some.injEq] at he
            rw [← he]
            exact hb
          | true =>
            have hrun : (c :: b :: r).takeWhile jsIsWs = c :: b :: r.takeWhile jsIsWs := by
              simp [List.takeWhile_cons, hc, hb]
            have hm : DP.ws2Matcher (c :: b :: r) =
                some ([' '], (c :: b :: r.takeWhile jsIsWs).length) := by
              unfold DP.ws2Matcher
              dsimp only
              rw [hc, if_pos rfl, hrun,
                if_pos (show 2 ≤ (c :: b :: r.takeWhile jsIsWs).length from by
                  simp only [List.length_cons]; omega)]
            simp only [scanGo, hm, List.singleton_append]
            rw [show max (c :: b :: r.takeWhile jsIsWs).length 1
                  = (c :: b :: r.takeWhile jsIsWs).length from
                Nat.max_eq_left (by simp only [List.length_cons]; omega)]
            rw [← hrun, drop_takeWhile_len]
            have hd2 : (c :: b :: r).dropWhile jsIsWs = r.dropWhile jsIsWs := by
              simp [List.dropWhile_cons, hc, hb]
            have hdl : ((c :: b :: r).dropWhile jsIsWs).length ≤ n := by
              rw [hd2]
              have h1 := List.IsSuffix.length_le (List.dropWhile_suffix (l := r) (p := jsIsWs))
              rw [hrest] at hr
              simp only [List.length_cons] at hr
              omega
            refine noWs2_cons_of (ih _ hdl) ?_
            intro d hd _
            exact ws2_scan_head n _ (head_dropWhile_false jsIsWs (c :: b :: r)) d hd

/-- The three collapsing scans introduce no `<` or `&`. -/
theorem scan3_no_markup {s : Str} (hlt : '<' ∉ s) (hamp : '&' ∉ s) :
    '<' ∉ scanRepl DP.ws2Matcher (scanRepl DP.nl3Matcher (scanRepl DP.nlRunsMatcher s))
    ∧ '&' ∉ scanRepl DP.ws2Matcher (scanRepl DP.nl3Matcher (scanRepl DP.nlRunsMatcher s)) := by
  have hPs : ∀ c ∈ s, c ≠ '<' ∧ c ≠ '&' :=
    fun c hc => ⟨fun he => hlt (he ▸ hc), fun he => hamp (he ▸ hc)⟩
  have hPnl : ∀ (s' out : Str) (k : Nat), DP.nlRunsMatcher s' = some (out, k) →
      ∀ c ∈ out, c ≠ '<' ∧ c ≠ '&' := by
    intro s' out k hm c hc
    rw [nlRunsMatcher_out hm] at hc
    have hc' : c = '\n' := by simpa using hc
    subst hc'
    exact ⟨by decide, by decide⟩
  have hPnl3 : ∀ (s' out : Str) (k : Nat), DP.nl3Matcher s' = some (out, k) →
      ∀ c ∈ out, c ≠ '<' ∧ c ≠ '&' := by
    intro s' out k hm c hc
    rw [nl3Matcher_out hm] at hc
    have hc' : c = '\n' := by simpa using hc
    subst hc'
    exact ⟨by decide, by decide⟩
  have hPws : ∀ (s' out : Str) (k : Nat), DP.ws2Matcher s' = some (out, k) →
      ∀ c ∈ out, c ≠ '<' ∧ c ≠ '&' := by
    intro s' out k hm c hc
    rw [ws2Matcher_out hm] at hc
    have hc' : c = ' ' := by simpa using hc
    subst hc'
    exact ⟨by decide, by decide⟩
  have hP7 : ∀ c ∈ scanRepl DP.ws2Matcher
      (scanRepl DP.nl3Matcher (scanRepl DP.nlRunsMatcher s)), c ≠ '<' ∧ c ≠ '&' :=
    mem_scanGo _ (fun c => c ≠ '<' ∧ c ≠ '&') hPws _ _
      (mem_scanGo _ (fun c => c ≠ '<' ∧ c ≠ '&') hPnl3 _ _
        (mem_scanGo _ (fun c => c ≠ '<' ∧ c ≠ '&') hPnl _ _ hPs))
  exact ⟨fun hm => (hP7 '<' hm).1 rfl, fun hm => (hP7 '&' hm).2 rfl⟩

/-- C2: corrected. In general `cleanupHTML` is not idempotent (see the
counterexample: removing an empty `<li>` leaves an empty `<ul>` that only
the next pass removes), but on markup-free input — no `<` and no `&` — one
pass reduces to newline/whitespace collapsing followed by a trim, whose
output has no adjacent whitespace and no surrounding whitespace, so a
second `cleanupHTML` is a no-op. -/
theorem cleanupHTML_idempotent_plain {s : Str} (hlt : '<' ∉ s) (hamp : '&' ∉ s) :
    DP.cleanupHTML (DP.cleanupHTML s) = DP.cleanupHTML s := by
  have htail : ∀ (c : Char) (rest : Str), noWs2 (c :: rest) = true → noWs2 rest = true :=
    fun _ _ h => noWs2_tail h
  have key : ∀ t : Str, noWs2 t = true → '<' ∉ t → '&' ∉ t → jsTrim t = t →
      DP.cleanupHTML t = t := by
    intro t hnw hlt2 hamp2 htr
    rw [cleanupHTML_plain hlt2 hamp2]
    rw [show scanRepl DP.nlRunsMatcher t = t from
      scanGo_id_of _ (fun v => noWs2 v = true)
        (fun _ h => nlRunsMatcher_none_noWs2 h) htail _ _ hnw]
    rw [show scanRepl DP.nl3Matcher t = t from
      scanGo_id_of _ (fun v => noWs2 v = true)
        (fun _ h => nl3Matcher_none_noWs2 h) htail _ _ hnw]
    rw [show scanRepl DP.ws2Matcher t = t from
      scanGo_id_of _ (fun v => noWs2 v = true)
        (fun _ h => ws2Matcher_none_noWs2 h) htail _ _ hnw]
    exact htr
  have hmu := scan3_no_markup hlt hamp
  rw [cleanupHTML_plain hlt hamp]
  exact key _
    (noWs2_jsTrim (ws2_scan_noWs2
      (scanRepl DP.nl3Matcher (scanRepl DP.nlRunsMatcher s)).length
      (scanRepl DP.nl3Matcher (scanRepl DP.nlRunsMatcher s)) (Nat.le_refl _)))
    (fun hm => hmu.1 (mem_jsTrim hm))
    (fun hm => hmu.2 (mem_jsTrim hm))
    (jsTrim_idem _)

/-- Witness for `cleanupHTML_idempotent_plain` at a concrete markup-free
string with runs of spaces and newlines. -/
theorem cleanupHTML_idempotent_plain_witness :
    '<' ∉ ("  a   b\n\n\n\n\tc ".data) ∧ '&' ∉ ("  a   b\n\n\n\n\tc ".data) ∧
    DP.cleanupHTML (DP.cleanupHTML ("  a   b\n\n\n\n\tc ".data))
      = DP.cleanupHTML ("  a   b\n\n\n\n\tc ".data) :=
  ⟨by decide, by decide, cleanupHTML_idempotent_plain (by decide) (by decide)⟩
